import Mathlib

/-!
Shallow embedding of the two scripts of this repository,
`analyze_ane.py` (ANE compatibility analyzer) and `quantize_kokoro.py`
(precision reducer), together with theorems settling the frozen claims.

Modelling conventions:
* Python dicts become association lists `List (String × _)` that keep the
  Python insertion order (an existing key keeps its slot, a fresh key is
  appended), which matches CPython dict semantics.
* The external coremltools library is an opaque collaborator; its calls are
  modelled by an oracle record whose fallible calls return `Except String _`
  (a raised exception is `Except.error`).
* Python floats are modelled by exact rationals `ℚ`; the lone transcendental
  step (the SNR value in decibels) is represented symbolically by the pair
  of mean powers it is the base-10 logarithm of.
* String literals from the source are kept verbatim except that the ASCII
  apostrophes decorating names in a few messages are omitted.
-/

/-- Lower-casing of a string, modelling the Python str.lower call (only
ASCII characters occur in the operator names involved). Defined through the
character list so that it reduces structurally. -/
def strLower (s : String) : String := String.mk (s.data.map Char.toLower)

/-- Whether the second list is a leading segment of the first. -/
def listStartsWith : List Char → List Char → Bool
  | _, [] => true
  | [], _ :: _ => false
  | a :: as, b :: bs => (a == b) && listStartsWith as bs

/-- Whether the pattern occurs as a contiguous subsequence of the list. -/
def listContainsSeq : List Char → List Char → Bool
  | [], pat => pat.isEmpty
  | a :: as, pat => listStartsWith (a :: as) pat || listContainsSeq as pat

/-- Whether pat occurs as a substring of s, modelling the Python in operator
on strings. -/
def strContainsSub (s pat : String) : Bool := listContainsSeq s.data pat.data

/-- Whether s ends with the suffix suf, modelling the Python endswith call. -/
def strEndsWith (s suf : String) : Bool :=
  listStartsWith s.data.reverse suf.data.reverse

/-- Python dict increment `d[k] = d.get(k, 0) + 1` on an insertion-ordered
association list. -/
def incCount : List (String × Nat) → String → List (String × Nat)
  | [], k => [(k, 1)]
  | (k0, v) :: rest, k =>
    if k0 = k then (k0, v + 1) :: rest else (k0, v) :: incCount rest k

/-- Python dict assignment `d[k] = v` on an insertion-ordered association
list. -/
def dictSet {β : Type} : List (String × β) → String → β → List (String × β)
  | [], k, v => [(k, v)]
  | (k0, v0) :: rest, k, v =>
    if k0 = k then (k0, v) :: rest else (k0, v0) :: dictSet rest k v

/-- Python max over a list of integers (the empty case never arises at the
call site, which guards on length at least two). -/
def listMaxI : List Int → Int
  | [] => 0
  | a :: as => as.foldl max a

/-! ### analyze_ane.py: static tables -/

/-- ANE_PROBLEMATIC_OPS from analyze_ane.py: operations known to be
problematic for ANE. -/
def ANE_PROBLEMATIC_OPS : List String :=
  ["custom", "customLayer",
   "reshape_dynamic", "slice_dynamic", "gather_nd",
   "einsum"]

/-- ANE_OPTIMIZED_OPS from analyze_ane.py: operations that work well on
ANE. -/
def ANE_OPTIMIZED_OPS : List String :=
  ["conv", "conv2d", "depthwise_conv2d", "conv_transpose",
   "linear", "matmul", "batch_matmul",
   "relu", "gelu", "silu", "sigmoid", "tanh", "leaky_relu",
   "add", "mul", "sub", "div", "real_div",
   "softmax", "layer_norm", "batch_norm", "instance_norm",
   "reshape", "transpose", "squeeze", "expand_dims", "flatten",
   "concat", "split", "slice_by_index", "gather",
   "reduce_mean", "reduce_sum", "reduce_max",
   "embedding", "pad", "upsample_nearest_neighbor"]

/-- ANE_CONSTRAINTS from analyze_ane.py: tensor shape constraints for
ANE. -/
structure ANEConstraintsTable where
  max_tensor_size_mb : Nat
  max_batch_size : Nat
  preferred_channel_alignment : Nat
  max_sequence_length : Nat

/-- The concrete constraint values of ANE_CONSTRAINTS. -/
def ANE_CONSTRAINTS : ANEConstraintsTable :=
  { max_tensor_size_mb := 256
    max_batch_size := 32
    preferred_channel_alignment := 16
    max_sequence_length := 2048 }

/-! ### analyze_ane.py: data model of the loaded CoreML model -/

/-- One operation of an ML Program block; type is the value op.type read by
the analyzer. -/
structure MILOperation where
  type : String
deriving DecidableEq

/-- One block specialization of an ML Program function. -/
structure MILBlock where
  operations : List MILOperation
deriving DecidableEq

/-- One function of an ML Program (func_name is read in the source but
unused, so only the fields the analysis reads are kept plus the name). -/
structure MILFunction where
  name : String
  block_specializations : List MILBlock
deriving DecidableEq

/-- The mlProgram payload of a model spec. -/
structure MLProgramRep where
  functions : List MILFunction
deriving DecidableEq

/-- One layer of a legacy neuralNetwork model; layer is the oneof tag
returned by layer.WhichOneof, name is layer.name. -/
structure NNLayer where
  name : String
  layer : String
deriving DecidableEq

/-- The neuralNetwork payload of a model spec. -/
structure NeuralNetworkRep where
  layers : List NNLayer
deriving DecidableEq

/-- The multiArrayType variant of a feature type, carrying the declared
shape. -/
structure MultiArrayType where
  shape : List Int
deriving DecidableEq

/-- A feature type; the multiArrayType variant may be absent (the hasattr
probe in the source). -/
structure FeatureType where
  multiArrayType : Option MultiArrayType
deriving DecidableEq

/-- An input or output description; the type attribute may be absent (the
hasattr probe in the source). -/
structure FeatureDescription where
  name : String
  type : Option FeatureType
deriving DecidableEq

/-- The model spec: which_type is spec.WhichOneof applied to Type (None when
no variant is set), plus the two possible graph payloads. -/
structure MLSpec where
  which_type : Option String
  mlProgram : MLProgramRep
  neuralNetwork : NeuralNetworkRep
deriving DecidableEq

/-- A loaded CoreML model as the analyzer reads it. -/
structure MLModel where
  spec : MLSpec
  input_description : List FeatureDescription
  output_description : List FeatureDescription
deriving DecidableEq

/-- The analysis result record built by analyze_ml_program. -/
structure AnalysisResult where
  model_path : String
  format : String
  ane_compatible : Bool
  warnings : List String
  blocking_issues : List String
  operations : List (String × Nat)
  input_shapes : List (String × List Int)
  output_shapes : List (String × List Int)
  recommendations : List String
deriving DecidableEq

/-! ### analyze_ane.py: analysis functions -/

/-- The warning text emitted for a problematic operation in the ML Program
path. -/
def fallbackWarning (op_type : String) : String :=
  "Operation " ++ op_type ++ " may cause ANE fallback"

/-- The blocking-issue text emitted for a custom operation in the ML Program
path. -/
def customBlockingIssue (op_type : String) : String :=
  "Custom layer " ++ op_type ++ " not supported on ANE"

/-- The warning text emitted for a problematic layer in the neuralNetwork
path. -/
def nnFallbackWarning (layer_name layer_type : String) : String :=
  "Layer " ++ layer_name ++ " (" ++ layer_type ++ ") may cause ANE fallback"

/-- The blocking-issue text emitted for a custom layer in the neuralNetwork
path. -/
def nnCustomBlockingIssue (layer_name : String) : String :=
  "Custom layer " ++ layer_name ++ " not supported on ANE"

/-- The body of the innermost loop of analyze_mlprogram_ops: count the
operation, warn when its lower-cased type is a problematic op, and record a
blocking issue (clearing ane_compatible) when it contains "custom". -/
def mlprogramOpStep (results : AnalysisResult) (op_type : String) : AnalysisResult :=
  let results :=
    { results with operations := incCount results.operations op_type }
  let op_lower := strLower op_type
  let results :=
    if op_lower ∈ ANE_PROBLEMATIC_OPS then
      { results with warnings := results.warnings ++ [fallbackWarning op_type] }
    else results
  if strContainsSub op_lower "custom" then
    { results with
        blocking_issues := results.blocking_issues ++ [customBlockingIssue op_type]
        ane_compatible := false }
  else results

/-- analyze_mlprogram_ops from analyze_ane.py: walk every operation of every
block specialization of every function. -/
def analyze_mlprogram_ops (spec : MLSpec) (results : AnalysisResult) : AnalysisResult :=
  spec.mlProgram.functions.foldl (fun results function =>
    function.block_specializations.foldl (fun results block =>
      block.operations.foldl (fun results op => mlprogramOpStep results op.type)
        results)
      results)
    results

/-- The body of the loop of analyze_neural_network_ops: count the layer tag,
record a blocking issue (clearing ane_compatible) when the tag is exactly
"custom", and warn when its lower-cased tag is a problematic op. -/
def nnLayerStep (results : AnalysisResult) (layer : NNLayer) : AnalysisResult :=
  let layer_type := layer.layer
  let results :=
    { results with operations := incCount results.operations layer_type }
  let results :=
    if layer_type = "custom" then
      { results with
          blocking_issues := results.blocking_issues ++ [nnCustomBlockingIssue layer.name]
          ane_compatible := false }
    else results
  if strLower layer_type ∈ ANE_PROBLEMATIC_OPS then
    { results with warnings := results.warnings ++ [nnFallbackWarning layer.name layer_type] }
  else results

/-- analyze_neural_network_ops from analyze_ane.py. -/
def analyze_neural_network_ops (spec : MLSpec) (results : AnalysisResult) : AnalysisResult :=
  spec.neuralNetwork.layers.foldl nnLayerStep results

/-- The recommendation text for models with blocking issues. -/
def blockingRec : String :=
  "❌ Model contains blocking issues. Custom layers must be replaced with supported operations or the model must be re-exported."

/-- The recommendation text for models with warnings. -/
def warningsRec : String :=
  "⚠️ Some operations may cause partial ANE fallback. Profile with Instruments to measure actual ANE utilization."

/-- The recommendation text for compute-heavy operations. -/
def float16Rec : String :=
  "💡 Consider Float16 precision for compute-heavy operations. Use compute_precision=ct.precision.FLOAT16 during conversion."

/-- The recommendation text for convolution channel alignment. -/
def convAlignmentRec : String :=
  "💡 Ensure convolution channel dimensions are multiples of 16 for optimal ANE tile processing."

/-- The recommendation text for over-long sequence lengths. -/
def seqLenRec (seq_len : Int) : String :=
  "⚠️ Sequence length " ++ toString seq_len ++ " may exceed ANE limits. Consider chunking input for very long sequences."

/-- The recommendation text for a model with nothing to flag. -/
def wellOptimizedRec : String :=
  "✅ Model appears well-optimized for ANE execution."

/-- generate_recommendations from analyze_ane.py: a pure function of the
result record. -/
def generate_recommendations (results : AnalysisResult) : List String :=
  let recommendations : List String := []
  let recommendations :=
    if !results.ane_compatible then recommendations ++ [blockingRec]
    else recommendations
  let recommendations :=
    if !results.warnings.isEmpty then recommendations ++ [warningsRec]
    else recommendations
  let ops := results.operations.map Prod.fst
  let has_compute_ops :=
    ops.any (fun op => strLower op ∈ ["matmul", "linear", "conv", "conv2d"])
  let recommendations :=
    if has_compute_ops then recommendations ++ [float16Rec]
    else recommendations
  let recommendations :=
    if ops.any (fun op => strContainsSub (strLower op) "conv") then
      recommendations ++ [convAlignmentRec]
    else recommendations
  let recommendations :=
    if ops.any (fun op =>
        strContainsSub (strLower op) "attention" || strContainsSub (strLower op) "softmax") then
      results.input_shapes.foldl (fun recs p =>
        if p.2.length ≥ 2 then
          let seq_len := listMaxI p.2
          if seq_len > (ANE_CONSTRAINTS.max_sequence_length : Int) then
            recs ++ [seqLenRec seq_len]
          else recs
        else recs)
        recommendations
    else recommendations
  if recommendations.isEmpty then [wellOptimizedRec] else recommendations

/-- The fresh result record analyze_ml_program starts from. -/
def initResults (model_path : String) : AnalysisResult :=
  { model_path := model_path
    format := "unknown"
    ane_compatible := true
    warnings := []
    blocking_issues := []
    operations := []
    input_shapes := []
    output_shapes := []
    recommendations := [] }

/-- The shape recorded for a feature description: present exactly when both
the type attribute and its multiArrayType variant are present. -/
def extractShape (desc : FeatureDescription) : Option (String × List Int) :=
  match desc.type with
  | some t =>
    match t.multiArrayType with
    | some m => some (desc.name, m.shape)
    | none => none
  | none => none

/-- The format-dispatch phase of analyze_ml_program: set the format from the
oneof tag and run the matching operator walk. The `model_type or "unknown"`
fallback maps a None or empty tag to "unknown". -/
def formatAndOpsPhase (model_path : String) (model : MLModel) : AnalysisResult :=
  let results := initResults model_path
  match model.spec.which_type with
  | some "mlProgram" =>
    analyze_mlprogram_ops model.spec { results with format := "mlprogram" }
  | some "neuralNetwork" =>
    analyze_neural_network_ops model.spec { results with format := "neuralNetwork" }
  | some t => { results with format := if t = "" then "unknown" else t }
  | none => { results with format := "unknown" }

/-- The body of the input-shape loop of analyze_ml_program. -/
def inputShapeStep (results : AnalysisResult) (input_desc : FeatureDescription) :
    AnalysisResult :=
  match extractShape input_desc with
  | some (name, shape) =>
    { results with input_shapes := dictSet results.input_shapes name shape }
  | none => results

/-- The body of the output-shape loop of analyze_ml_program. -/
def outputShapeStep (results : AnalysisResult) (output_desc : FeatureDescription) :
    AnalysisResult :=
  match extractShape output_desc with
  | some (name, shape) =>
    { results with output_shapes := dictSet results.output_shapes name shape }
  | none => results

/-- analyze_ml_program from analyze_ane.py, taking the already-loaded model
(the ct.models.MLModel load is the external library): format dispatch plus
the operator walk, shape extraction over the declared inputs and outputs,
then recommendations. -/
def analyze_ml_program (model_path : String) (model : MLModel) : AnalysisResult :=
  let results := formatAndOpsPhase model_path model
  let results := model.input_description.foldl inputShapeStep results
  let results := model.output_description.foldl outputShapeStep results
  { results with recommendations := generate_recommendations results }

/-! ### quantize_kokoro.py: data model -/

/-- The metrics record produced by the quantization entry points. Sizes in
megabytes, reduction in percent; Python floats are modelled by exact
rationals. -/
structure Metrics where
  original_size_mb : ℚ
  quantized_size_mb : ℚ
  reduction_percent : ℚ
deriving DecidableEq

/-- How one synthetic test tensor of validate_quantized_model is filled. -/
inductive TensorFill where
  | zeros
  | ones
  | randn
deriving DecidableEq

/-- One synthetic test tensor: its numpy shape and fill. -/
structure TestTensor where
  shape : List Nat
  fill : TensorFill
deriving DecidableEq

/-- The dummy test input dict built inside validate_quantized_model. -/
def test_input : List (String × TestTensor) :=
  [("input_ids", { shape := [1, 124], fill := TensorFill.zeros }),
   ("attention_mask", { shape := [1, 124], fill := TensorFill.ones }),
   ("ref_s", { shape := [1, 256], fill := TensorFill.randn }),
   ("random_phases", { shape := [1, 9], fill := TensorFill.zeros })]

/-- Numpy element types named in the ONNX conversion input specs. -/
inductive NPDType where
  | int32
  | float16
  | float32
deriving DecidableEq

/-- One dimension of a conversion input spec: fixed, or a RangeDim. -/
inductive DimSpec where
  | fixed (n : Nat)
  | rangeDim (lo hi : Nat)
deriving DecidableEq

/-- One ct.TensorType input spec passed to the converter. -/
structure TensorTypeSpec where
  name : String
  shape : List DimSpec
  dtype : NPDType
deriving DecidableEq

/-- The four Kokoro input specs built in convert_onnx_to_coreml_fp16. -/
def kokoro_input_shapes : List TensorTypeSpec :=
  [{ name := "input_ids", shape := [DimSpec.fixed 1, DimSpec.rangeDim 1 512], dtype := NPDType.int32 },
   { name := "attention_mask", shape := [DimSpec.fixed 1, DimSpec.rangeDim 1 512], dtype := NPDType.int32 },
   { name := "ref_s", shape := [DimSpec.fixed 1, DimSpec.fixed 256], dtype := NPDType.float16 },
   { name := "random_phases", shape := [DimSpec.fixed 1, DimSpec.fixed 9], dtype := NPDType.float16 }]

/-- The target_map of convert_onnx_to_coreml_fp16, mapping CLI names to
deployment-target constants (the constants are opaque; their names stand for
them). -/
def target_map : List (String × String) :=
  [("ios15", "iOS15"), ("ios16", "iOS16"), ("ios17", "iOS17")]

/-- The oracle for the external coremltools library and the filesystem as
quantize_kokoro.py uses them. Fallible calls return Except String; a raised
exception is Except.error. get_model_size_mb is the on-disk directory walk
(a pure size oracle per path, queried after the corresponding save). predict
returns the output dict with every array already flattened to a list of
samples. -/
structure QuantLib where
  loadModel : String → Except String MLModel
  get_model_size_mb : String → ℚ
  linear_quantize_weights : MLModel → Except String MLModel
  palettize_weights : MLModel → Except String MLModel
  quantize_weights : MLModel → Nat → String → Except String MLModel
  save : MLModel → String → Except String Unit
  convert : String → List TensorTypeSpec → String → Except String MLModel
  predict : MLModel → List (String × TestTensor) → Except String (List (String × List ℚ))

/-! ### quantize_kokoro.py: functions -/

/-- quantize_to_float16 from quantize_kokoro.py: load, measure, dispatch on
the model format to the library quantizer, save, measure again, and build
the metrics record. Library failures propagate. -/
def quantize_to_float16 (lib : QuantLib) (input_path output_path : String) :
    Except String Metrics := do
  let model ← lib.loadModel input_path
  let original_size := lib.get_model_size_mb input_path
  let quantized_model ←
    if model.spec.which_type = some "mlProgram" then
      lib.linear_quantize_weights model
    else
      lib.quantize_weights model 16 "linear"
  let _ ← lib.save quantized_model output_path
  let quantized_size := lib.get_model_size_mb output_path
  let reduction := ((original_size - quantized_size) / original_size) * 100
  pure { original_size_mb := original_size
         quantized_size_mb := quantized_size
         reduction_percent := reduction }

/-- quantize_to_int8 from quantize_kokoro.py: as quantize_to_float16 but
through palettization (mlProgram) or 8-bit kmeans quantization (legacy). -/
def quantize_to_int8 (lib : QuantLib) (input_path output_path : String) :
    Except String Metrics := do
  let model ← lib.loadModel input_path
  let original_size := lib.get_model_size_mb input_path
  let quantized_model ←
    if model.spec.which_type = some "mlProgram" then
      lib.palettize_weights model
    else
      lib.quantize_weights model 8 "kmeans"
  let _ ← lib.save quantized_model output_path
  let quantized_size := lib.get_model_size_mb output_path
  let reduction := ((original_size - quantized_size) / original_size) * 100
  pure { original_size_mb := original_size
         quantized_size_mb := quantized_size
         reduction_percent := reduction }

/-- convert_onnx_to_coreml_fp16 from quantize_kokoro.py: look up the
deployment target (defaulting to iOS16), convert with the fixed Kokoro input
specs, and save. Library failures propagate. -/
def convert_onnx_to_coreml_fp16 (lib : QuantLib) (onnx_path output_path min_target : String) :
    Except String MLModel := do
  let target := (target_map.lookup min_target).getD "iOS16"
  let model ← lib.convert onnx_path kokoro_input_shapes target
  let _ ← lib.save model output_path
  pure model

/-- Mean of a list of rationals, modelling np.mean (Lean division by zero
gives 0 on the empty list, where numpy would give NaN; the call sites use
arrays of equal positive length). -/
def qmean (xs : List ℚ) : ℚ := xs.sum / xs.length

/-- The three quality numbers of the validation comparison. snr_db none is
the float inf sentinel taken when the noise power is not positive; snr_db
some (sp, np) stands for the decibel value 10 * log10 (sp / np) and stores
the two mean powers exactly. -/
structure AudioMetrics where
  snr_db : Option (ℚ × ℚ)
  max_error : ℚ
  mean_error : ℚ
deriving DecidableEq

/-- The message of the ValueError numpy raises when np.max reduces a
zero-size array. -/
def npMaxEmptyMsg : String :=
  "zero-size array to reduction operation maximum which has no identity"

/-- np.max over a list: the maximum of a nonempty list, and the ValueError
numpy raises on an empty one. -/
def np_max : List ℚ → Except String ℚ
  | [] => Except.error npMaxEmptyMsg
  | a :: t => Except.ok (t.foldl max a)

/-- The audio comparison inlined in validate_quantized_model: truncate both
flattened arrays to the shorter length, take the difference as noise, and
derive SNR, max absolute error, mean absolute error. On empty arrays
np.mean returns NaN, for which the NaN > 0 test is false exactly like the
0 > 0 test here (the inf branch is taken either way), and np.max then
raises, so the divergent mean values are never observable. -/
def audio_comparison (orig_flat quant_flat : List ℚ) : Except String AudioMetrics :=
  let min_len := min orig_flat.length quant_flat.length
  let orig_audio := orig_flat.take min_len
  let quant_audio := quant_flat.take min_len
  let noise := List.zipWith (fun a b => a - b) orig_audio quant_audio
  let signal_power := qmean (orig_audio.map (fun x => x * x))
  let noise_power := qmean (noise.map (fun x => x * x))
  let snr_db := if noise_power > 0 then some (signal_power, noise_power) else none
  do
    let max_error ← np_max (noise.map (fun x => |x|))
    let mean_error := qmean (noise.map (fun x => |x|))
    pure { snr_db := snr_db, max_error := max_error, mean_error := mean_error }

/-- What validate_quantized_model hands back when it does not raise:
metrics from a successful comparison, absent for the silent implicit None
(audio key missing), caught for the warned None of the except branch. -/
inductive ValidateResult where
  | metrics (m : AudioMetrics)
  | absent
  | caught (msg : String)
deriving DecidableEq

/-- validate_quantized_model from quantize_kokoro.py. The two model loads
sit before the try block, so their exceptions propagate; exceptions inside
the try block are caught, warned about, and turned into a None return. -/
def validate_quantized_model (lib : QuantLib) (original_path quantized_path : String) :
    Except String ValidateResult := do
  let original ← lib.loadModel original_path
  let quantized ← lib.loadModel quantized_path
  let tryBlock : Except String ValidateResult := do
    let orig_output ← lib.predict original test_input
    let quant_output ← lib.predict quantized test_input
    match orig_output.lookup "audio", quant_output.lookup "audio" with
    | some orig_audio, some quant_audio => do
      let m ← audio_comparison orig_audio quant_audio
      pure (ValidateResult.metrics m)
    | _, _ => pure ValidateResult.absent
  match tryBlock with
  | Except.ok r => pure r
  | Except.error e => pure (ValidateResult.caught e)

/-- The parsed CLI arguments of quantize_kokoro.py main. -/
structure QuantArgs where
  input : String
  output : String
  precision : String
  from_onnx : Bool
  validate : Bool
  compile : Bool
  target : String
deriving DecidableEq

/-- The observable pipeline steps main performs, recorded in order. -/
inductive MainAction where
  | convert_action (input output target : String)
  | analyze_action (input : String)
  | quantize_fp16_action (input output : String)
  | quantize_int8_action (input output : String)
  | validate_action (input output : String)
  | compile_action (output : String)
deriving DecidableEq

/-- main from quantize_kokoro.py after argument parsing: the from-onnx
branch converts and returns early; otherwise analyze (a model load), the
chosen quantization producing the metrics record, then the optional
validation and the optional device compilation (the latter only for a
.mlpackage output; the subprocess itself is opaque and recorded as an
action). Returns the actions performed and the metrics record, if any. -/
def quantize_main (lib : QuantLib) (args : QuantArgs) :
    Except String (List MainAction × Option Metrics) := do
  if args.from_onnx then
    let _ ← convert_onnx_to_coreml_fp16 lib args.input args.output args.target
    pure ([MainAction.convert_action args.input args.output args.target], none)
  else
    let _ ← lib.loadModel args.input
    let metrics ←
      if args.precision = "float16" then quantize_to_float16 lib args.input args.output
      else quantize_to_int8 lib args.input args.output
    let acts :=
      [MainAction.analyze_action args.input,
       if args.precision = "float16" then MainAction.quantize_fp16_action args.input args.output
       else MainAction.quantize_int8_action args.input args.output]
    let acts ←
      if args.validate then do
        let _ ← validate_quantized_model lib args.input args.output
        pure (acts ++ [MainAction.validate_action args.input args.output])
      else pure acts
    let acts :=
      if args.compile && strEndsWith args.output ".mlpackage" then
        acts ++ [MainAction.compile_action args.output]
      else acts
    pure (acts, some metrics)

/-! ### JSON model for the analyzer report (json.dumps / json.loads) -/

/-- A JSON value, the structured output format of the analyzer. -/
inductive JValue where
  | jnull
  | jbool (b : Bool)
  | jint (n : Int)
  | jstr (s : String)
  | jarr (xs : List JValue)
  | jobj (fields : List (String × JValue))

/-- Serialize a list of strings as a JSON array. -/
def encodeStrList (l : List String) : JValue := JValue.jarr (l.map JValue.jstr)

/-- Serialize the operation-count dict. -/
def encodeOps (l : List (String × Nat)) : JValue :=
  JValue.jobj (l.map (fun p => (p.1, JValue.jint p.2)))

/-- Serialize a shape dict. -/
def encodeShapes (l : List (String × List Int)) : JValue :=
  JValue.jobj (l.map (fun p => (p.1, JValue.jarr (p.2.map JValue.jint))))

/-- Serialize the analysis result record, field for field, as json.dumps
renders the results dict. -/
def encodeResult (r : AnalysisResult) : JValue :=
  JValue.jobj
    [("model_path", JValue.jstr r.model_path),
     ("format", JValue.jstr r.format),
     ("ane_compatible", JValue.jbool r.ane_compatible),
     ("warnings", encodeStrList r.warnings),
     ("blocking_issues", encodeStrList r.blocking_issues),
     ("operations", encodeOps r.operations),
     ("input_shapes", encodeShapes r.input_shapes),
     ("output_shapes", encodeShapes r.output_shapes),
     ("recommendations", encodeStrList r.recommendations)]

/-- Parse a JSON string value. -/
def decodeStr : JValue → Option String
  | JValue.jstr s => some s
  | _ => none

/-- Parse a JSON boolean value. -/
def decodeBool : JValue → Option Bool
  | JValue.jbool b => some b
  | _ => none

/-- Parse a JSON integer value. -/
def decodeInt : JValue → Option Int
  | JValue.jint n => some n
  | _ => none

/-- Parse a JSON integer value as a count (counts are nonnegative). -/
def decodeNat : JValue → Option Nat
  | JValue.jint (Int.ofNat n) => some n
  | _ => none

/-- Parse a list of JSON values as strings. -/
def decodeStrItems : List JValue → Option (List String)
  | [] => some []
  | v :: vs => do
    let s ← decodeStr v
    let rest ← decodeStrItems vs
    pure (s :: rest)

/-- Parse a JSON array of strings. -/
def decodeStrList : JValue → Option (List String)
  | JValue.jarr xs => decodeStrItems xs
  | _ => none

/-- Parse a list of JSON values as integers. -/
def decodeIntItems : List JValue → Option (List Int)
  | [] => some []
  | v :: vs => do
    let n ← decodeInt v
    let rest ← decodeIntItems vs
    pure (n :: rest)

/-- Parse a JSON array of integers. -/
def decodeIntList : JValue → Option (List Int)
  | JValue.jarr xs => decodeIntItems xs
  | _ => none

/-- Parse the fields of the operation-count object. -/
def decodeOpsItems : List (String × JValue) → Option (List (String × Nat))
  | [] => some []
  | p :: ps => do
    let n ← decodeNat p.2
    let rest ← decodeOpsItems ps
    pure ((p.1, n) :: rest)

/-- Parse the operation-count object. -/
def decodeOps : JValue → Option (List (String × Nat))
  | JValue.jobj fields => decodeOpsItems fields
  | _ => none

/-- Parse the fields of a shape object. -/
def decodeShapesItems : List (String × JValue) → Option (List (String × List Int))
  | [] => some []
  | p :: ps => do
    let s ← decodeIntList p.2
    let rest ← decodeShapesItems ps
    pure ((p.1, s) :: rest)

/-- Parse a shape object. -/
def decodeShapes : JValue → Option (List (String × List Int))
  | JValue.jobj fields => decodeShapesItems fields
  | _ => none

/-- Parse a JSON value back into an analysis result record (json.loads plus
reading the nine fields of the report). -/
def decodeResult : JValue → Option AnalysisResult
  | JValue.jobj
      [("model_path", v1), ("format", v2), ("ane_compatible", v3),
       ("warnings", v4), ("blocking_issues", v5), ("operations", v6),
       ("input_shapes", v7), ("output_shapes", v8), ("recommendations", v9)] => do
    let model_path ← decodeStr v1
    let format ← decodeStr v2
    let ane_compatible ← decodeBool v3
    let warnings ← decodeStrList v4
    let blocking_issues ← decodeStrList v5
    let operations ← decodeOps v6
    let input_shapes ← decodeShapes v7
    let output_shapes ← decodeShapes v8
    let recommendations ← decodeStrList v9
    pure { model_path := model_path, format := format
           ane_compatible := ane_compatible, warnings := warnings
           blocking_issues := blocking_issues, operations := operations
           input_shapes := input_shapes, output_shapes := output_shapes
           recommendations := recommendations }
  | _ => none

/-! ### Generic fold invariant lemmas -/

/-- A property preserved by every step is preserved by the fold. -/
theorem foldl_pres {α σ : Type _} (step : σ → α → σ) (P : σ → Prop)
    (hstep : ∀ s x, P s → P (step s x)) :
    ∀ (l : List α) (s : σ), P s → P (l.foldl step s) := by
  intro l
  induction l with
  | nil => intro s h; exact h
  | cons x xs ih => intro s h; exact ih (step s x) (hstep s x h)

/-- A property preserved by the steps taken along a given list is preserved
by the fold over that list. -/
theorem foldl_pres_mem {α σ : Type _} (step : σ → α → σ) (P : σ → Prop)
    (l : List α) (hstep : ∀ s x, x ∈ l → P s → P (step s x)) :
    ∀ s, P s → P (l.foldl step s) := by
  induction l with
  | nil => intro s h; exact h
  | cons x xs ih =>
    intro s h
    exact ih (fun s y hy => hstep s y (List.mem_cons_of_mem x hy)) (step s x)
      (hstep s x (List.mem_cons_self x xs) h)

/-- A property established by stepping on some member of the list and
preserved by every step holds after the fold. -/
theorem foldl_mem_establish {α σ : Type _} (step : σ → α → σ) (P : σ → Prop)
    (hstep : ∀ s x, P s → P (step s x)) (x : α) (hx : ∀ s, P (step s x)) :
    ∀ (l : List α) (s : σ), x ∈ l → P (l.foldl step s) := by
  intro l
  induction l with
  | nil => intro s h; cases h
  | cons y ys ih =>
    intro s h
    rcases List.mem_cons.mp h with h | h
    · subst h
      exact foldl_pres step P hstep ys (step s x) (hx s)
    · exact ih (step s y) h

/-! ### Flattening the nested ML Program walk -/

/-- The operation types of one block specialization, in walk order. -/
def blockOps (b : MILBlock) : List String := b.operations.map MILOperation.type

/-- The operation types of one function, in walk order. -/
def functionOps (f : MILFunction) : List String :=
  (f.block_specializations.map blockOps).flatten

/-- Every operation type the ML Program walk encounters, in walk order. -/
def programOps (spec : MLSpec) : List String :=
  (spec.mlProgram.functions.map functionOps).flatten

/-- The nested walk of analyze_mlprogram_ops is the fold of the per-op step
over the flattened operation list. -/
theorem analyze_mlprogram_ops_eq_foldl (spec : MLSpec) (results : AnalysisResult) :
    analyze_mlprogram_ops spec results = (programOps spec).foldl mlprogramOpStep results := by
  unfold analyze_mlprogram_ops programOps
  rw [List.foldl_flatten, List.foldl_map]
  have hfun :
      (fun (r : AnalysisResult) (f : MILFunction) =>
          f.block_specializations.foldl
            (fun r b => b.operations.foldl (fun r op => mlprogramOpStep r op.type) r) r) =
        (fun r f => (functionOps f).foldl mlprogramOpStep r) := by
    funext r f
    unfold functionOps
    rw [List.foldl_flatten, List.foldl_map]
    have hblk :
        (fun (r : AnalysisResult) (b : MILBlock) =>
            b.operations.foldl (fun r op => mlprogramOpStep r op.type) r) =
          (fun r b => (blockOps b).foldl mlprogramOpStep r) := by
      funext r b
      unfold blockOps
      rw [List.foldl_map]
    rw [hblk]
  rw [hfun]

/-! ### The shape-extraction folds as pure map updates -/

/-- The effect of one shape-loop step on the shape dict alone. -/
def shapeDictStep (m : List (String × List Int)) (d : FeatureDescription) :
    List (String × List Int) :=
  match extractShape d with
  | some (n, s) => dictSet m n s
  | none => m

/-- The cumulative effect of the shape loop on a shape dict. -/
def shapesUpdate (m : List (String × List Int)) (l : List FeatureDescription) :
    List (String × List Int) :=
  l.foldl shapeDictStep m

/-- One input-shape step rewrites exactly the input_shapes field. -/
theorem inputShapeStep_eq (r : AnalysisResult) (d : FeatureDescription) :
    inputShapeStep r d = { r with input_shapes := shapeDictStep r.input_shapes d } := by
  unfold inputShapeStep shapeDictStep
  cases h : extractShape d with
  | none => rfl
  | some p => cases p with | mk n s => rfl

/-- One output-shape step rewrites exactly the output_shapes field. -/
theorem outputShapeStep_eq (r : AnalysisResult) (d : FeatureDescription) :
    outputShapeStep r d = { r with output_shapes := shapeDictStep r.output_shapes d } := by
  unfold outputShapeStep shapeDictStep
  cases h : extractShape d with
  | none => rfl
  | some p => cases p with | mk n s => rfl

/-- The input-shape loop only rewrites the input_shapes field. -/
theorem inputFold_eq (l : List FeatureDescription) (r : AnalysisResult) :
    l.foldl inputShapeStep r = { r with input_shapes := shapesUpdate r.input_shapes l } := by
  induction l generalizing r with
  | nil => rfl
  | cons d ds ih =>
    show ds.foldl inputShapeStep (inputShapeStep r d) = _
    rw [ih, inputShapeStep_eq]
    rfl

/-- The output-shape loop only rewrites the output_shapes field. -/
theorem outputFold_eq (l : List FeatureDescription) (r : AnalysisResult) :
    l.foldl outputShapeStep r = { r with output_shapes := shapesUpdate r.output_shapes l } := by
  induction l generalizing r with
  | nil => rfl
  | cons d ds ih =>
    show ds.foldl outputShapeStep (outputShapeStep r d) = _
    rw [ih, outputShapeStep_eq]
    rfl

/-- Normal form of analyze_ml_program: the ops phase, one update of each
shape field, then the recommendations of that record. -/
theorem analyze_ml_program_eq (model_path : String) (model : MLModel) :
    analyze_ml_program model_path model =
      (let r1 :=
        { formatAndOpsPhase model_path model with
            input_shapes :=
              shapesUpdate (formatAndOpsPhase model_path model).input_shapes
                model.input_description
            output_shapes :=
              shapesUpdate (formatAndOpsPhase model_path model).output_shapes
                model.output_description };
       { r1 with recommendations := generate_recommendations r1 }) := by
  unfold analyze_ml_program
  dsimp only
  rw [inputFold_eq, outputFold_eq]

/-- The record produced before recommendations are attached. -/
def prePhase (model_path : String) (model : MLModel) : AnalysisResult :=
  { formatAndOpsPhase model_path model with
      input_shapes :=
        shapesUpdate (formatAndOpsPhase model_path model).input_shapes
          model.input_description
      output_shapes :=
        shapesUpdate (formatAndOpsPhase model_path model).output_shapes
          model.output_description }

/-- analyze_ml_program through prePhase. -/
theorem analyze_eq_pre (model_path : String) (model : MLModel) :
    analyze_ml_program model_path model =
      { prePhase model_path model with
          recommendations := generate_recommendations (prePhase model_path model) } := by
  rw [analyze_ml_program_eq]
  rfl

/-! ### Characterizations of the two per-operator steps -/

/-- mlprogramOpStep written as a single record update. -/
theorem mlprogramOpStep_eq (s : AnalysisResult) (op : String) :
    mlprogramOpStep s op =
      { s with
          operations := incCount s.operations op
          warnings :=
            if strLower op ∈ ANE_PROBLEMATIC_OPS then s.warnings ++ [fallbackWarning op]
            else s.warnings
          blocking_issues :=
            if strContainsSub (strLower op) "custom" = true then
              s.blocking_issues ++ [customBlockingIssue op]
            else s.blocking_issues
          ane_compatible :=
            if strContainsSub (strLower op) "custom" = true then false
            else s.ane_compatible } := by
  unfold mlprogramOpStep
  dsimp only
  by_cases h1 : strLower op ∈ ANE_PROBLEMATIC_OPS <;>
    by_cases h2 : strContainsSub (strLower op) "custom" = true <;>
      simp [h1, h2]

/-- nnLayerStep written as a single record update. -/
theorem nnLayerStep_eq (s : AnalysisResult) (l : NNLayer) :
    nnLayerStep s l =
      { s with
          operations := incCount s.operations l.layer
          warnings :=
            if strLower l.layer ∈ ANE_PROBLEMATIC_OPS then
              s.warnings ++ [nnFallbackWarning l.name l.layer]
            else s.warnings
          blocking_issues :=
            if l.layer = "custom" then s.blocking_issues ++ [nnCustomBlockingIssue l.name]
            else s.blocking_issues
          ane_compatible :=
            if l.layer = "custom" then false
            else s.ane_compatible } := by
  unfold nnLayerStep
  dsimp only
  by_cases h1 : l.layer = "custom"
  · have hmem : strLower "custom" ∈ ANE_PROBLEMATIC_OPS := by decide
    simp [h1, hmem]
  · by_cases h2 : strLower l.layer ∈ ANE_PROBLEMATIC_OPS <;> simp [h1, h2]

/-! ### Monotonicity, hit, and invariant lemmas for the per-operator steps -/

/-- Warnings already present survive an ML Program step. -/
theorem mlprogramOpStep_warnings_mono (s : AnalysisResult) (op w : String)
    (h : w ∈ s.warnings) : w ∈ (mlprogramOpStep s op).warnings := by
  rw [mlprogramOpStep_eq]
  dsimp only
  split <;> simp [h]

/-- A problematic operation adds its warning in the ML Program step. -/
theorem mlprogramOpStep_warnings_hit (s : AnalysisResult) (op : String)
    (h : strLower op ∈ ANE_PROBLEMATIC_OPS) :
    fallbackWarning op ∈ (mlprogramOpStep s op).warnings := by
  rw [mlprogramOpStep_eq]
  dsimp only
  rw [if_pos h]
  simp

/-- Blocking issues already present survive an ML Program step. -/
theorem mlprogramOpStep_blocking_mono (s : AnalysisResult) (op w : String)
    (h : w ∈ s.blocking_issues) : w ∈ (mlprogramOpStep s op).blocking_issues := by
  rw [mlprogramOpStep_eq]
  dsimp only
  split <;> simp [h]

/-- An operation containing "custom" adds its blocking issue and clears the
compatibility flag in the ML Program step. -/
theorem mlprogramOpStep_custom_hit (s : AnalysisResult) (op : String)
    (h : strContainsSub (strLower op) "custom" = true) :
    customBlockingIssue op ∈ (mlprogramOpStep s op).blocking_issues ∧
      (mlprogramOpStep s op).ane_compatible = false := by
  rw [mlprogramOpStep_eq]
  dsimp only
  rw [if_pos h, if_pos h]
  simp

/-- A cleared compatibility flag stays cleared across an ML Program step. -/
theorem mlprogramOpStep_compat_false (s : AnalysisResult) (op : String)
    (h : s.ane_compatible = false) :
    (mlprogramOpStep s op).ane_compatible = false := by
  rw [mlprogramOpStep_eq]
  dsimp only
  split <;> simp [h]

/-- Warnings already present survive a neuralNetwork step. -/
theorem nnLayerStep_warnings_mono (s : AnalysisResult) (l : NNLayer) (w : String)
    (h : w ∈ s.warnings) : w ∈ (nnLayerStep s l).warnings := by
  rw [nnLayerStep_eq]
  dsimp only
  split <;> simp [h]

/-- A problematic layer tag adds its warning in the neuralNetwork step. -/
theorem nnLayerStep_warnings_hit (s : AnalysisResult) (l : NNLayer)
    (h : strLower l.layer ∈ ANE_PROBLEMATIC_OPS) :
    nnFallbackWarning l.name l.layer ∈ (nnLayerStep s l).warnings := by
  rw [nnLayerStep_eq]
  dsimp only
  rw [if_pos h]
  simp

/-- Blocking issues already present survive a neuralNetwork step. -/
theorem nnLayerStep_blocking_mono (s : AnalysisResult) (l : NNLayer) (w : String)
    (h : w ∈ s.blocking_issues) : w ∈ (nnLayerStep s l).blocking_issues := by
  rw [nnLayerStep_eq]
  dsimp only
  split <;> simp [h]

/-- A layer whose tag is exactly "custom" adds its blocking issue and clears
the compatibility flag in the neuralNetwork step. -/
theorem nnLayerStep_custom_hit (s : AnalysisResult) (l : NNLayer)
    (h : l.layer = "custom") :
    nnCustomBlockingIssue l.name ∈ (nnLayerStep s l).blocking_issues ∧
      (nnLayerStep s l).ane_compatible = false := by
  rw [nnLayerStep_eq]
  dsimp only
  rw [if_pos h, if_pos h]
  simp

/-- A cleared compatibility flag stays cleared across a neuralNetwork
step. -/
theorem nnLayerStep_compat_false (s : AnalysisResult) (l : NNLayer)
    (h : s.ane_compatible = false) :
    (nnLayerStep s l).ane_compatible = false := by
  rw [nnLayerStep_eq]
  dsimp only
  split <;> simp [h]

/-- The coupling of the compatibility flag and the blocking-issues list. -/
def ResInv (r : AnalysisResult) : Prop :=
  r.ane_compatible = true ↔ r.blocking_issues = []

/-- The coupling invariant is preserved by the ML Program step. -/
theorem mlprogramOpStep_resInv (s : AnalysisResult) (op : String)
    (h : ResInv s) : ResInv (mlprogramOpStep s op) := by
  unfold ResInv at h ⊢
  rw [mlprogramOpStep_eq]
  dsimp only
  by_cases hc : strContainsSub (strLower op) "custom" = true
  · rw [if_pos hc, if_pos hc]
    simp
  · rw [if_neg hc, if_neg hc]
    exact h

/-- The coupling invariant is preserved by the neuralNetwork step. -/
theorem nnLayerStep_resInv (s : AnalysisResult) (l : NNLayer)
    (h : ResInv s) : ResInv (nnLayerStep s l) := by
  unfold ResInv at h ⊢
  rw [nnLayerStep_eq]
  dsimp only
  by_cases hc : l.layer = "custom"
  · rw [if_pos hc, if_pos hc]
    simp
  · rw [if_neg hc, if_neg hc]
    exact h

/-! ### The format-dispatch phase on each branch -/

/-- On an mlProgram model the ops phase is the flat fold of the per-op
step. -/
theorem formatAndOpsPhase_mlprogram (model_path : String) (model : MLModel)
    (h : model.spec.which_type = some "mlProgram") :
    formatAndOpsPhase model_path model =
      (programOps model.spec).foldl mlprogramOpStep
        { initResults model_path with format := "mlprogram" } := by
  unfold formatAndOpsPhase
  rw [h, ← analyze_mlprogram_ops_eq_foldl]
  rfl

/-- On a neuralNetwork model the ops phase is the fold of the per-layer
step. -/
theorem formatAndOpsPhase_nn (model_path : String) (model : MLModel)
    (h : model.spec.which_type = some "neuralNetwork") :
    formatAndOpsPhase model_path model =
      model.spec.neuralNetwork.layers.foldl nnLayerStep
        { initResults model_path with format := "neuralNetwork" } := by
  unfold formatAndOpsPhase
  rw [h]
  rfl

/-! ### Field projections of the full analysis -/

/-- The warnings of the full analysis are those of the ops phase. -/
theorem analyze_warnings_eq (model_path : String) (model : MLModel) :
    (analyze_ml_program model_path model).warnings =
      (formatAndOpsPhase model_path model).warnings := by
  rw [analyze_eq_pre]
  rfl

/-- The blocking issues of the full analysis are those of the ops phase. -/
theorem analyze_blocking_eq (model_path : String) (model : MLModel) :
    (analyze_ml_program model_path model).blocking_issues =
      (formatAndOpsPhase model_path model).blocking_issues := by
  rw [analyze_eq_pre]
  rfl

/-- The compatibility flag of the full analysis is that of the ops phase. -/
theorem analyze_compat_eq (model_path : String) (model : MLModel) :
    (analyze_ml_program model_path model).ane_compatible =
      (formatAndOpsPhase model_path model).ane_compatible := by
  rw [analyze_eq_pre]
  rfl

/-- The operation counts of the full analysis are those of the ops phase. -/
theorem analyze_operations_eq (model_path : String) (model : MLModel) :
    (analyze_ml_program model_path model).operations =
      (formatAndOpsPhase model_path model).operations := by
  rw [analyze_eq_pre]
  rfl

/-- The input shapes of the full analysis. -/
theorem analyze_input_shapes_eq (model_path : String) (model : MLModel) :
    (analyze_ml_program model_path model).input_shapes =
      shapesUpdate (formatAndOpsPhase model_path model).input_shapes
        model.input_description := by
  rw [analyze_eq_pre]
  rfl

/-- The output shapes of the full analysis. -/
theorem analyze_output_shapes_eq (model_path : String) (model : MLModel) :
    (analyze_ml_program model_path model).output_shapes =
      shapesUpdate (formatAndOpsPhase model_path model).output_shapes
        model.output_description := by
  rw [analyze_eq_pre]
  rfl

/-- The recommendations of the full analysis. -/
theorem analyze_recommendations_eq (model_path : String) (model : MLModel) :
    (analyze_ml_program model_path model).recommendations =
      generate_recommendations (prePhase model_path model) := by
  rw [analyze_eq_pre]

/-- The coupling invariant holds after the ops phase on every branch. -/
theorem formatAndOpsPhase_resInv (model_path : String) (model : MLModel) :
    ResInv (formatAndOpsPhase model_path model) := by
  have hinit : ∀ fmt : String, ResInv { initResults model_path with format := fmt } := by
    intro fmt
    unfold ResInv initResults
    simp
  unfold formatAndOpsPhase
  dsimp only
  split
  · rw [analyze_mlprogram_ops_eq_foldl]
    exact foldl_pres _ ResInv (fun s op => mlprogramOpStep_resInv s op) _ _ (hinit _)
  · exact foldl_pres _ ResInv (fun s l => nnLayerStep_resInv s l) _ _ (hinit _)
  · unfold ResInv initResults
    simp
  · unfold ResInv initResults
    simp

/-! ### Claim C1 -/

/-- A legacy-format model with one layer whose oneof tag is "custom_layer":
its lower-cased tag contains "custom" but the legacy walk tests exact
equality with "custom". -/
def customLayerNNModel : MLModel :=
  { spec :=
      { which_type := some "neuralNetwork"
        mlProgram := { functions := [] }
        neuralNetwork := { layers := [{ name := "layer_0", layer := "custom_layer" }] } }
    input_description := []
    output_description := [] }

/-- Claim C1 counterexample: in the legacy network-style path a layer whose
lower-cased type contains the substring "custom" (here "custom_layer") does
NOT get a blocking issue and does NOT clear the compatibility flag, because
that path compares the raw tag for exact equality with "custom". -/
theorem C1_counterexample :
    strContainsSub (strLower "custom_layer") "custom" = true ∧
    (analyze_ml_program "kokoro.mlpackage" customLayerNNModel).blocking_issues = [] ∧
    (analyze_ml_program "kokoro.mlpackage" customLayerNNModel).ane_compatible = true := by
  decide

/-- Claim C1 (amended): in the program-style path, an operator whose
lower-cased name is in the problematic set gets a warning referencing it,
and one whose lower-cased name contains "custom" gets a blocking issue and
clears the compatibility flag; in the legacy network-style path, a layer
whose lower-cased oneof tag is in the problematic set gets a warning
referencing it, while the blocking issue and the flag clear happen exactly
for layers whose raw tag equals "custom" (not for mere substring
matches). -/
theorem C1_classification_rules :
    (∀ (model_path : String) (model : MLModel) (op : String),
      model.spec.which_type = some "mlProgram" →
      op ∈ programOps model.spec →
      (strLower op ∈ ANE_PROBLEMATIC_OPS →
        fallbackWarning op ∈ (analyze_ml_program model_path model).warnings) ∧
      (strContainsSub (strLower op) "custom" = true →
        customBlockingIssue op ∈ (analyze_ml_program model_path model).blocking_issues ∧
        (analyze_ml_program model_path model).ane_compatible = false)) ∧
    (∀ (model_path : String) (model : MLModel) (layer : NNLayer),
      model.spec.which_type = some "neuralNetwork" →
      layer ∈ model.spec.neuralNetwork.layers →
      (strLower layer.layer ∈ ANE_PROBLEMATIC_OPS →
        nnFallbackWarning layer.name layer.layer ∈ (analyze_ml_program model_path model).warnings) ∧
      (layer.layer = "custom" →
        nnCustomBlockingIssue layer.name ∈ (analyze_ml_program model_path model).blocking_issues ∧
        (analyze_ml_program model_path model).ane_compatible = false)) := by
  constructor
  · intro model_path model op hfmt hop
    rw [analyze_warnings_eq, analyze_blocking_eq, analyze_compat_eq,
      formatAndOpsPhase_mlprogram model_path model hfmt]
    constructor
    · intro hmem
      exact foldl_mem_establish mlprogramOpStep
        (fun r => fallbackWarning op ∈ r.warnings)
        (fun s x hP => mlprogramOpStep_warnings_mono s x _ hP)
        op (fun s => mlprogramOpStep_warnings_hit s op hmem) _ _ hop
    · intro hcustom
      exact foldl_mem_establish mlprogramOpStep
        (fun r => customBlockingIssue op ∈ r.blocking_issues ∧ r.ane_compatible = false)
        (fun s x hP => ⟨mlprogramOpStep_blocking_mono s x _ hP.1,
          mlprogramOpStep_compat_false s x hP.2⟩)
        op (fun s => mlprogramOpStep_custom_hit s op hcustom) _ _ hop
  · intro model_path model layer hfmt hlayer
    rw [analyze_warnings_eq, analyze_blocking_eq, analyze_compat_eq,
      formatAndOpsPhase_nn model_path model hfmt]
    constructor
    · intro hmem
      exact foldl_mem_establish nnLayerStep
        (fun r => nnFallbackWarning layer.name layer.layer ∈ r.warnings)
        (fun s x hP => nnLayerStep_warnings_mono s x _ hP)
        layer (fun s => nnLayerStep_warnings_hit s layer hmem) _ _ hlayer
    · intro hcustom
      exact foldl_mem_establish nnLayerStep
        (fun r => nnCustomBlockingIssue layer.name ∈ r.blocking_issues ∧ r.ane_compatible = false)
        (fun s x hP => ⟨nnLayerStep_blocking_mono s x _ hP.1,
          nnLayerStep_compat_false s x hP.2⟩)
        layer (fun s => nnLayerStep_custom_hit s layer hcustom) _ _ hlayer

/-- An mlProgram-format model with one einsum and one custom_pad operation,
plus one legacy-format model with an einsum layer, used to witness the
classification rules. -/
def einsumProgramModel : MLModel :=
  { spec :=
      { which_type := some "mlProgram"
        mlProgram :=
          { functions :=
              [{ name := "main"
                 block_specializations :=
                   [{ operations := [{ type := "einsum" }, { type := "custom_pad" }] }] }] }
        neuralNetwork := { layers := [] } }
    input_description := []
    output_description := [] }

/-- A legacy-format model with one einsum layer and one exactly-custom
layer. -/
def einsumNNModel : MLModel :=
  { spec :=
      { which_type := some "neuralNetwork"
        mlProgram := { functions := [] }
        neuralNetwork :=
          { layers := [{ name := "l0", layer := "einsum" }, { name := "l1", layer := "custom" }] } }
    input_description := []
    output_description := [] }

/-- Witness for C1_classification_rules at concrete models: an einsum op
warns and a custom_pad op blocks in the program path; an einsum layer warns
and an exactly-custom layer blocks in the legacy path. -/
theorem C1_classification_rules_witness :
    (fallbackWarning "einsum" ∈ (analyze_ml_program "m" einsumProgramModel).warnings ∧
      customBlockingIssue "custom_pad" ∈ (analyze_ml_program "m" einsumProgramModel).blocking_issues ∧
      (analyze_ml_program "m" einsumProgramModel).ane_compatible = false) ∧
    (nnFallbackWarning "l0" "einsum" ∈ (analyze_ml_program "m" einsumNNModel).warnings ∧
      nnCustomBlockingIssue "l1" ∈ (analyze_ml_program "m" einsumNNModel).blocking_issues ∧
      (analyze_ml_program "m" einsumNNModel).ane_compatible = false) := by
  have h1 := C1_classification_rules.1 "m" einsumProgramModel "einsum" rfl (by decide)
  have h2 := C1_classification_rules.1 "m" einsumProgramModel "custom_pad" rfl (by decide)
  have h3 := C1_classification_rules.2 "m" einsumNNModel
    { name := "l0", layer := "einsum" } rfl (by decide)
  have h4 := C1_classification_rules.2 "m" einsumNNModel
    { name := "l1", layer := "custom" } rfl (by decide)
  have h2c := h2.2 (by decide)
  have h4c := h4.2 rfl
  exact ⟨⟨h1.1 (by decide), h2c.1, h2c.2⟩, ⟨h3.1 (by decide), h4c.1, h4c.2⟩⟩

/-! ### Claim C2 -/

/-- Claim C2: the compatibility flag starts true, both per-operator steps
only ever move it from true to false (a false flag is never reset), and at
the end of every analysis the flag is true exactly when the blocking-issues
list is empty. -/
theorem C2_compat_flag_invariant :
    (∀ model_path : String, (initResults model_path).ane_compatible = true) ∧
    (∀ (s : AnalysisResult) (op : String),
      s.ane_compatible = false → (mlprogramOpStep s op).ane_compatible = false) ∧
    (∀ (s : AnalysisResult) (l : NNLayer),
      s.ane_compatible = false → (nnLayerStep s l).ane_compatible = false) ∧
    (∀ (model_path : String) (model : MLModel),
      (analyze_ml_program model_path model).ane_compatible = true ↔
        (analyze_ml_program model_path model).blocking_issues = []) := by
  refine ⟨fun _ => rfl, mlprogramOpStep_compat_false, nnLayerStep_compat_false, ?_⟩
  intro model_path model
  rw [analyze_compat_eq, analyze_blocking_eq]
  exact formatAndOpsPhase_resInv model_path model

/-- Witness for C2_compat_flag_invariant: the flag stays false across both
steps on a concrete cleared record, and the closing equivalence holds for a
concrete custom-bearing model. -/
theorem C2_compat_flag_invariant_witness :
    (initResults "kokoro.mlpackage").ane_compatible = true ∧
    (mlprogramOpStep { initResults "m" with ane_compatible := false } "relu").ane_compatible = false ∧
    (nnLayerStep { initResults "m" with ane_compatible := false }
      { name := "l0", layer := "relu" }).ane_compatible = false ∧
    ((analyze_ml_program "m" einsumNNModel).ane_compatible = true ↔
      (analyze_ml_program "m" einsumNNModel).blocking_issues = []) :=
  ⟨C2_compat_flag_invariant.1 "kokoro.mlpackage",
   C2_compat_flag_invariant.2.1 _ "relu" rfl,
   C2_compat_flag_invariant.2.2.1 _ _ rfl,
   C2_compat_flag_invariant.2.2.2 "m" einsumNNModel⟩

/-! ### Claim C3 -/

/-- Keys after a count increment are the old keys plus the counted key. -/
theorem incCount_keys :
    ∀ (m : List (String × Nat)) (op k : String),
      k ∈ (incCount m op).map Prod.fst → k ∈ m.map Prod.fst ∨ k = op := by
  intro m op
  induction m with
  | nil =>
    intro k h
    unfold incCount at h
    simp at h
    exact Or.inr h
  | cons p rest ih =>
    obtain ⟨k0, v⟩ := p
    intro k h
    unfold incCount at h
    by_cases he : k0 = op
    · rw [if_pos he] at h
      rw [List.map_cons] at h ⊢
      exact Or.inl h
    · rw [if_neg he] at h
      rw [List.map_cons] at h
      rw [List.map_cons]
      rcases List.mem_cons.mp h with h | h
      · exact Or.inl (h ▸ List.mem_cons_self _ _)
      · rcases ih k h with h2 | h2
        · exact Or.inl (List.mem_cons_of_mem _ h2)
        · exact Or.inr h2

/-- An operation that is neither problematic nor custom leaves warnings,
blocking issues and the flag alone and only counts itself. -/
theorem mlprogramOpStep_clean (s : AnalysisResult) (op : String)
    (h1 : strLower op ∉ ANE_PROBLEMATIC_OPS)
    (h2 : strContainsSub (strLower op) "custom" = false) :
    (mlprogramOpStep s op).warnings = s.warnings ∧
    (mlprogramOpStep s op).blocking_issues = s.blocking_issues ∧
    (mlprogramOpStep s op).ane_compatible = s.ane_compatible ∧
    (mlprogramOpStep s op).operations = incCount s.operations op := by
  rw [mlprogramOpStep_eq]
  dsimp only
  rw [if_neg h1, if_neg (by simp [h2]), if_neg (by simp [h2])]
  exact ⟨rfl, rfl, rfl, rfl⟩

/-- Every operator of the optimized table is neither problematic nor
custom once lower-cased. -/
theorem optimized_ops_clean :
    ∀ op ∈ ANE_OPTIMIZED_OPS,
      strLower op ∉ ANE_PROBLEMATIC_OPS ∧ strContainsSub (strLower op) "custom" = false := by
  decide

/-- Over a program whose operators are all optimized, the ops phase keeps
warnings and blocking issues empty, the flag true, and counts only walked
operators. -/
theorem optimized_fold_clean (model_path : String) (model : MLModel)
    (hfmt : model.spec.which_type = some "mlProgram")
    (hall : ∀ op ∈ programOps model.spec, op ∈ ANE_OPTIMIZED_OPS) :
    (formatAndOpsPhase model_path model).warnings = [] ∧
    (formatAndOpsPhase model_path model).blocking_issues = [] ∧
    (formatAndOpsPhase model_path model).ane_compatible = true ∧
    ∀ k ∈ (formatAndOpsPhase model_path model).operations.map Prod.fst,
      k ∈ programOps model.spec := by
  rw [formatAndOpsPhase_mlprogram model_path model hfmt]
  refine foldl_pres_mem mlprogramOpStep
    (fun r => r.warnings = [] ∧ r.blocking_issues = [] ∧ r.ane_compatible = true ∧
      ∀ k ∈ r.operations.map Prod.fst, k ∈ programOps model.spec)
    (programOps model.spec) ?_ _ ⟨rfl, rfl, rfl, by simp [initResults]⟩
  intro s x hx hP
  obtain ⟨hw, hb, hc, hk⟩ := hP
  obtain ⟨c1, c2⟩ := optimized_ops_clean x (hall x hx)
  obtain ⟨cw, cb, cc, cop⟩ := mlprogramOpStep_clean s x c1 c2
  refine ⟨by rw [cw, hw], by rw [cb, hb], by rw [cc, hc], ?_⟩
  rw [cop]
  intro k hk2
  rcases incCount_keys s.operations x k hk2 with h | h
  · exact hk k h
  · rw [h]
    exact hx

/-- For a record with the flag set, no warnings, and operator keys avoiding
the compute names and the conv, attention and softmax substrings, the
recommendation generator emits exactly the well-optimized message. -/
theorem generate_recommendations_clean (r : AnalysisResult)
    (hc : r.ane_compatible = true) (hw : r.warnings = [])
    (hops : ∀ k ∈ r.operations.map Prod.fst,
      strLower k ∉ (["matmul", "linear", "conv", "conv2d"] : List String) ∧
      strContainsSub (strLower k) "conv" = false ∧
      strContainsSub (strLower k) "attention" = false ∧
      strContainsSub (strLower k) "softmax" = false) :
    generate_recommendations r = [wellOptimizedRec] := by
  have ha1 : (r.operations.map Prod.fst).any
      (fun op => strLower op ∈ (["matmul", "linear", "conv", "conv2d"] : List String)) = false := by
    rw [List.any_eq_false]
    intro x hx
    simp [(hops x hx).1]
  have ha2 : (r.operations.map Prod.fst).any
      (fun op => strContainsSub (strLower op) "conv") = false := by
    rw [List.any_eq_false]
    intro x hx
    simp [(hops x hx).2.1]
  have ha3 : (r.operations.map Prod.fst).any
      (fun op => strContainsSub (strLower op) "attention" ||
        strContainsSub (strLower op) "softmax") = false := by
    rw [List.any_eq_false]
    intro x hx
    simp [(hops x hx).2.2.1, (hops x hx).2.2.2]
  unfold generate_recommendations
  dsimp only
  rw [if_neg (by rw [hc]; simp : ¬ ((!r.ane_compatible) = true)),
    if_neg (by rw [hw]; simp : ¬ ((!r.warnings.isEmpty) = true)),
    if_neg (by rw [ha1]; simp :
      ¬ (((r.operations.map Prod.fst).any
        (fun op => strLower op ∈ (["matmul", "linear", "conv", "conv2d"] : List String))) = true)),
    if_neg (by rw [ha2]; simp :
      ¬ (((r.operations.map Prod.fst).any
        (fun op => strContainsSub (strLower op) "conv")) = true)),
    if_neg (by rw [ha3]; simp :
      ¬ (((r.operations.map Prod.fst).any
        (fun op => strContainsSub (strLower op) "attention" ||
          strContainsSub (strLower op) "softmax")) = true))]
  rfl

/-- No operator of the optimized table is the exact tag "custom". -/
theorem optimized_ops_not_custom : ∀ op ∈ ANE_OPTIMIZED_OPS, op ≠ "custom" := by
  decide

/-- A layer whose tag is neither problematic (lower-cased) nor exactly
"custom" leaves warnings, blocking issues and the flag alone and only
counts its tag. -/
theorem nnLayerStep_clean (s : AnalysisResult) (l : NNLayer)
    (h1 : strLower l.layer ∉ ANE_PROBLEMATIC_OPS)
    (h2 : ¬ l.layer = "custom") :
    (nnLayerStep s l).warnings = s.warnings ∧
    (nnLayerStep s l).blocking_issues = s.blocking_issues ∧
    (nnLayerStep s l).ane_compatible = s.ane_compatible ∧
    (nnLayerStep s l).operations = incCount s.operations l.layer := by
  rw [nnLayerStep_eq]
  dsimp only
  rw [if_neg h1, if_neg h2, if_neg h2]
  exact ⟨rfl, rfl, rfl, rfl⟩

/-- The operator names the analyzer walk encounters: the flattened program
ops for an mlProgram model, the layer oneof tags for a legacy model, and
nothing for any other format. -/
def encounteredOps (model : MLModel) : List String :=
  match model.spec.which_type with
  | some "mlProgram" => programOps model.spec
  | some "neuralNetwork" => model.spec.neuralNetwork.layers.map NNLayer.layer
  | _ => []

/-- The encountered operators of an mlProgram model. -/
theorem encounteredOps_mlprogram (model : MLModel)
    (h : model.spec.which_type = some "mlProgram") :
    encounteredOps model = programOps model.spec := by
  unfold encounteredOps
  rw [h]
  rfl

/-- The encountered operators of a legacy model. -/
theorem encounteredOps_nn (model : MLModel)
    (h : model.spec.which_type = some "neuralNetwork") :
    encounteredOps model = model.spec.neuralNetwork.layers.map NNLayer.layer := by
  unfold encounteredOps
  rw [h]
  rfl

/-- The encountered operators of a model of any other format. -/
theorem encounteredOps_other (model : MLModel)
    (h1 : model.spec.which_type ≠ some "mlProgram")
    (h2 : model.spec.which_type ≠ some "neuralNetwork") :
    encounteredOps model = [] := by
  unfold encounteredOps
  split
  next heq => exact absurd heq h1
  next heq => exact absurd heq h2
  next => rfl

/-- On a model that is neither mlProgram nor neuralNetwork the ops phase
only sets the format. -/
theorem formatAndOpsPhase_other_fields (model_path : String) (model : MLModel)
    (h1 : model.spec.which_type ≠ some "mlProgram")
    (h2 : model.spec.which_type ≠ some "neuralNetwork") :
    (formatAndOpsPhase model_path model).warnings = [] ∧
    (formatAndOpsPhase model_path model).blocking_issues = [] ∧
    (formatAndOpsPhase model_path model).ane_compatible = true ∧
    (formatAndOpsPhase model_path model).operations = [] := by
  unfold formatAndOpsPhase
  dsimp only
  split
  next heq => exact absurd heq h1
  next heq => exact absurd heq h2
  next => exact ⟨rfl, rfl, rfl, rfl⟩
  next => exact ⟨rfl, rfl, rfl, rfl⟩

/-- Over a model whose encountered operators are all optimized, the ops
phase keeps warnings and blocking issues empty, the flag true, and counts
only encountered operators, on every format branch. -/
theorem optimized_phase_clean (model_path : String) (model : MLModel)
    (hall : ∀ op ∈ encounteredOps model, op ∈ ANE_OPTIMIZED_OPS) :
    (formatAndOpsPhase model_path model).warnings = [] ∧
    (formatAndOpsPhase model_path model).blocking_issues = [] ∧
    (formatAndOpsPhase model_path model).ane_compatible = true ∧
    ∀ k ∈ (formatAndOpsPhase model_path model).operations.map Prod.fst,
      k ∈ encounteredOps model := by
  rcases hw : model.spec.which_type with _ | t
  · obtain ⟨e1, e2, e3, e4⟩ := formatAndOpsPhase_other_fields model_path model
      (by rw [hw]; intro hc; cases hc) (by rw [hw]; intro hc; cases hc)
    refine ⟨e1, e2, e3, ?_⟩
    rw [e4]
    intro k hk
    simp at hk
  · by_cases h1 : t = "mlProgram"
    · subst h1
      have he := encounteredOps_mlprogram model hw
      rw [he] at hall ⊢
      rw [formatAndOpsPhase_mlprogram model_path model hw]
      refine foldl_pres_mem mlprogramOpStep
        (fun r => r.warnings = [] ∧ r.blocking_issues = [] ∧ r.ane_compatible = true ∧
          ∀ k ∈ r.operations.map Prod.fst, k ∈ programOps model.spec)
        (programOps model.spec) ?_ _ ⟨rfl, rfl, rfl, by simp [initResults]⟩
      intro s x hx hP
      obtain ⟨hw2, hb2, hc2, hk2⟩ := hP
      obtain ⟨c1, c2⟩ := optimized_ops_clean x (hall x hx)
      obtain ⟨cw, cb, cc, cop⟩ := mlprogramOpStep_clean s x c1 c2
      refine ⟨by rw [cw, hw2], by rw [cb, hb2], by rw [cc, hc2], ?_⟩
      rw [cop]
      intro k hk3
      rcases incCount_keys s.operations x k hk3 with h | h
      · exact hk2 k h
      · rw [h]
        exact hx
    · by_cases h2 : t = "neuralNetwork"
      · subst h2
        have he := encounteredOps_nn model hw
        rw [he] at hall ⊢
        rw [formatAndOpsPhase_nn model_path model hw]
        refine foldl_pres_mem nnLayerStep
          (fun r => r.warnings = [] ∧ r.blocking_issues = [] ∧ r.ane_compatible = true ∧
            ∀ k ∈ r.operations.map Prod.fst,
              k ∈ model.spec.neuralNetwork.layers.map NNLayer.layer)
          model.spec.neuralNetwork.layers ?_ _ ⟨rfl, rfl, rfl, by simp [initResults]⟩
        intro s l hl hP
        obtain ⟨hw2, hb2, hc2, hk2⟩ := hP
        have hopt := hall l.layer (List.mem_map_of_mem NNLayer.layer hl)
        obtain ⟨c1, c2⟩ := optimized_ops_clean l.layer hopt
        have c3 := optimized_ops_not_custom l.layer hopt
        obtain ⟨cw, cb, cc, cop⟩ := nnLayerStep_clean s l c1 c3
        refine ⟨by rw [cw, hw2], by rw [cb, hb2], by rw [cc, hc2], ?_⟩
        rw [cop]
        intro k hk3
        rcases incCount_keys s.operations l.layer k hk3 with h | h
        · exact hk2 k h
        · rw [h]
          exact List.mem_map_of_mem NNLayer.layer hl
      · obtain ⟨e1, e2, e3, e4⟩ := formatAndOpsPhase_other_fields model_path model
          (by rw [hw]; intro hc; exact h1 (Option.some.inj hc))
          (by rw [hw]; intro hc; exact h2 (Option.some.inj hc))
        refine ⟨e1, e2, e3, ?_⟩
        rw [e4]
        intro k hk
        simp at hk

/-- An mlProgram-format model whose only operation is matmul, an operator of
the optimized table. -/
def matmulModel : MLModel :=
  { spec :=
      { which_type := some "mlProgram"
        mlProgram :=
          { functions :=
              [{ name := "main"
                 block_specializations := [{ operations := [{ type := "matmul" }] }] }] }
        neuralNetwork := { layers := [] } }
    input_description := []
    output_description := [] }

/-- Claim C3 counterexample: a model containing only the optimized operator
matmul has empty warnings, empty blocking issues and a true flag, but its
recommendations are NOT the single well-optimized message (the compute-heavy
Float16 advisory fires for matmul). -/
theorem C3_counterexample :
    "matmul" ∈ ANE_OPTIMIZED_OPS ∧
    (analyze_ml_program "m" matmulModel).warnings = [] ∧
    (analyze_ml_program "m" matmulModel).blocking_issues = [] ∧
    (analyze_ml_program "m" matmulModel).ane_compatible = true ∧
    (analyze_ml_program "m" matmulModel).recommendations ≠ [wellOptimizedRec] := by
  decide

/-- Claim C3 (amended): every model whose encountered operators (program
ops, legacy layer tags, or none for other formats) all come from the
optimized set yields empty warnings, empty blocking issues and a true
compatibility flag; its recommendations are exactly the single
well-optimized message provided additionally that no operator lower-cases
into the compute-heavy set matmul/linear/conv/conv2d and no operator name
contains the substrings conv, attention or softmax (otherwise the advisory
recommendations fire). -/
theorem C3_optimized_model_analysis :
    ∀ (model_path : String) (model : MLModel),
      (∀ op ∈ encounteredOps model, op ∈ ANE_OPTIMIZED_OPS) →
      (analyze_ml_program model_path model).warnings = [] ∧
      (analyze_ml_program model_path model).blocking_issues = [] ∧
      (analyze_ml_program model_path model).ane_compatible = true ∧
      ((∀ op ∈ encounteredOps model,
          strLower op ∉ (["matmul", "linear", "conv", "conv2d"] : List String) ∧
          strContainsSub (strLower op) "conv" = false ∧
          strContainsSub (strLower op) "attention" = false ∧
          strContainsSub (strLower op) "softmax" = false) →
        (analyze_ml_program model_path model).recommendations = [wellOptimizedRec]) := by
  intro model_path model hall
  obtain ⟨hw, hb, hc, hk⟩ := optimized_phase_clean model_path model hall
  refine ⟨by rw [analyze_warnings_eq, hw], by rw [analyze_blocking_eq, hb],
    by rw [analyze_compat_eq, hc], ?_⟩
  intro hrestrict
  rw [analyze_recommendations_eq]
  refine generate_recommendations_clean _ hc hw ?_
  intro k hkmem
  exact hrestrict k (hk k hkmem)

/-- An mlProgram-format model with only relu and add operations. -/
def reluAddModel : MLModel :=
  { spec :=
      { which_type := some "mlProgram"
        mlProgram :=
          { functions :=
              [{ name := "main"
                 block_specializations :=
                   [{ operations := [{ type := "relu" }, { type := "add" }] }] }] }
        neuralNetwork := { layers := [] } }
    input_description := []
    output_description := [] }

/-- A legacy-format model with only relu and add layers. -/
def reluAddNNModel : MLModel :=
  { spec :=
      { which_type := some "neuralNetwork"
        mlProgram := { functions := [] }
        neuralNetwork :=
          { layers := [{ name := "l0", layer := "relu" }, { name := "l1", layer := "add" }] } }
    input_description := []
    output_description := [] }

/-- Witness for C3_optimized_model_analysis on the relu-and-add models of
both formats. -/
theorem C3_optimized_model_analysis_witness :
    ((analyze_ml_program "m" reluAddModel).warnings = [] ∧
      (analyze_ml_program "m" reluAddModel).blocking_issues = [] ∧
      (analyze_ml_program "m" reluAddModel).ane_compatible = true ∧
      (analyze_ml_program "m" reluAddModel).recommendations = [wellOptimizedRec]) ∧
    ((analyze_ml_program "m" reluAddNNModel).warnings = [] ∧
      (analyze_ml_program "m" reluAddNNModel).blocking_issues = [] ∧
      (analyze_ml_program "m" reluAddNNModel).ane_compatible = true ∧
      (analyze_ml_program "m" reluAddNNModel).recommendations = [wellOptimizedRec]) := by
  have h1 := C3_optimized_model_analysis "m" reluAddModel (by decide)
  have h2 := C3_optimized_model_analysis "m" reluAddNNModel (by decide)
  exact ⟨⟨h1.1, h1.2.1, h1.2.2.1, h1.2.2.2 (by decide)⟩,
    ⟨h2.1, h2.2.1, h2.2.2.1, h2.2.2.2 (by decide)⟩⟩

/-! ### Claim C7 -/

/-- Decoding inverts string-list encoding. -/
theorem decodeStrItems_encode (l : List String) :
    decodeStrItems (l.map JValue.jstr) = some l := by
  induction l with
  | nil => rfl
  | cons a t ih => simp [decodeStrItems, decodeStr, ih]

/-- Decoding inverts integer-list encoding. -/
theorem decodeIntItems_encode (l : List Int) :
    decodeIntItems (l.map JValue.jint) = some l := by
  induction l with
  | nil => rfl
  | cons a t ih => simp [decodeIntItems, decodeInt, ih]

/-- Decoding inverts operation-count encoding. -/
theorem decodeOpsItems_encode (l : List (String × Nat)) :
    decodeOpsItems (l.map (fun p => (p.1, JValue.jint p.2))) = some l := by
  induction l with
  | nil => rfl
  | cons a t ih => simp [decodeOpsItems, decodeNat, ih]

/-- Decoding inverts shape-dict encoding. -/
theorem decodeShapesItems_encode (l : List (String × List Int)) :
    decodeShapesItems (l.map (fun p => (p.1, JValue.jarr (p.2.map JValue.jint)))) = some l := by
  induction l with
  | nil => rfl
  | cons a t ih => simp [decodeShapesItems, decodeIntList, decodeIntItems_encode, ih]

/-- Claim C7: serializing an analysis result record to the structured JSON
form and parsing it back yields a record equal in all nine fields to the
original. -/
theorem C7_json_roundtrip (r : AnalysisResult) :
    decodeResult (encodeResult r) = some r := by
  unfold encodeResult decodeResult
  simp [encodeStrList, encodeOps, encodeShapes, decodeStr, decodeBool,
    decodeStrList, decodeOps, decodeShapes, decodeStrItems_encode,
    decodeOpsItems_encode, decodeShapesItems_encode]

/-! ### Claim C8 -/

/-- Assigning a fresh key appends it at the end, in dict order. -/
theorem dictSet_fresh {β : Type} (m : List (String × β)) (k : String) (v : β)
    (h : k ∉ m.map Prod.fst) : dictSet m k v = m ++ [(k, v)] := by
  induction m with
  | nil => rfl
  | cons p rest ih =>
    obtain ⟨k0, v0⟩ := p
    rw [List.map_cons] at h
    have h1 : ¬ k0 = k := by
      intro he
      exact h (by rw [he]; exact List.mem_cons_self _ _)
    unfold dictSet
    rw [if_neg h1, ih (fun hm => h (List.mem_cons_of_mem _ hm))]
    rfl

/-- A successful shape extraction is keyed by the description name. -/
theorem extractShape_name (d : FeatureDescription) (n : String) (s : List Int)
    (h : extractShape d = some (n, s)) : n = d.name := by
  unfold extractShape at h
  cases hd : d.type with
  | none => simp [hd] at h
  | some t =>
    cases hm : t.multiArrayType with
    | none => simp [hd, hm] at h
    | some ma =>
      simp [hd, hm] at h
      exact h.1.symm

/-- Over descriptions with fresh, pairwise distinct names, the shape loop
appends exactly the extracted entries, in order. -/
theorem shapesUpdate_fresh :
    ∀ (l : List FeatureDescription) (m : List (String × List Int)),
      (∀ d ∈ l, d.name ∉ m.map Prod.fst) →
      (l.map FeatureDescription.name).Nodup →
      shapesUpdate m l = m ++ l.filterMap extractShape := by
  intro l
  induction l with
  | nil => intro m _ _; simp [shapesUpdate]
  | cons d ds ih =>
    intro m hfresh hnodup
    rw [List.map_cons, List.nodup_cons] at hnodup
    obtain ⟨hd_not, hnd⟩ := hnodup
    show shapesUpdate (shapeDictStep m d) ds = m ++ (d :: ds).filterMap extractShape
    cases hx : extractShape d with
    | none =>
      have hstep : shapeDictStep m d = m := by unfold shapeDictStep; rw [hx]
      rw [hstep, ih m (fun d' hd' => hfresh d' (List.mem_cons_of_mem _ hd')) hnd]
      simp [List.filterMap_cons, hx]
    | some p =>
      obtain ⟨n, s⟩ := p
      have hn := extractShape_name d n s hx
      have hstep : shapeDictStep m d = m ++ [(n, s)] := by
        unfold shapeDictStep
        rw [hx]
        exact dictSet_fresh m n s (hn ▸ hfresh d (List.mem_cons_self _ _))
      have hfresh2 : ∀ d' ∈ ds, d'.name ∉ (m ++ [(n, s)]).map Prod.fst := by
        intro d' hd'
        rw [List.map_append]
        intro hmem
        rcases List.mem_append.mp hmem with hmem | hmem
        · exact hfresh d' (List.mem_cons_of_mem _ hd') hmem
        · simp at hmem
          apply hd_not
        
          rw [hn] at hmem
          rw [← hmem]
          exact List.mem_map_of_mem FeatureDescription.name hd'
      rw [hstep, ih (m ++ [(n, s)]) hfresh2 hnd]
      simp [List.filterMap_cons, hx]

/-- The ops phase leaves the input-shape dict empty. -/
theorem formatAndOpsPhase_input_shapes (model_path : String) (model : MLModel) :
    (formatAndOpsPhase model_path model).input_shapes = [] := by
  unfold formatAndOpsPhase
  dsimp only
  split
  · rw [analyze_mlprogram_ops_eq_foldl]
    exact foldl_pres mlprogramOpStep (fun r : AnalysisResult => r.input_shapes = [])
      (fun s op h => by rw [mlprogramOpStep_eq]; exact h) _ _ rfl
  · exact foldl_pres nnLayerStep (fun r : AnalysisResult => r.input_shapes = [])
      (fun s l h => by rw [nnLayerStep_eq]; exact h) _ _ rfl
  · rfl
  · rfl

/-- The ops phase leaves the output-shape dict empty. -/
theorem formatAndOpsPhase_output_shapes (model_path : String) (model : MLModel) :
    (formatAndOpsPhase model_path model).output_shapes = [] := by
  unfold formatAndOpsPhase
  dsimp only
  split
  · rw [analyze_mlprogram_ops_eq_foldl]
    exact foldl_pres mlprogramOpStep (fun r : AnalysisResult => r.output_shapes = [])
      (fun s op h => by rw [mlprogramOpStep_eq]; exact h) _ _ rfl
  · exact foldl_pres nnLayerStep (fun r : AnalysisResult => r.output_shapes = [])
      (fun s l h => by rw [nnLayerStep_eq]; exact h) _ _ rfl
  · rfl
  · rfl

/-- The ops phase only reads the model spec, never the declared inputs or
outputs. -/
theorem formatAndOpsPhase_descr_indep (model_path : String) (model : MLModel)
    (descs1 descs2 : List FeatureDescription) :
    formatAndOpsPhase model_path
        { model with input_description := descs1, output_description := descs2 } =
      formatAndOpsPhase model_path model := rfl

/-- Claim C8: over pairwise distinct declared names, the recorded shape
dicts consist of exactly the descriptions whose multiArrayType variant is
present (keyed by name, shape kept as the ordered integer list), entries
for descriptions without the variant being omitted; and the declared inputs
and outputs have no effect on warnings, blocking issues or the
compatibility flag. -/
theorem C8_shape_extraction (model_path : String) (model : MLModel) :
    ((model.input_description.map FeatureDescription.name).Nodup →
      (analyze_ml_program model_path model).input_shapes =
        model.input_description.filterMap extractShape) ∧
    ((model.output_description.map FeatureDescription.name).Nodup →
      (analyze_ml_program model_path model).output_shapes =
        model.output_description.filterMap extractShape) ∧
    (∀ descs1 descs2 : List FeatureDescription,
      (analyze_ml_program model_path
          { model with input_description := descs1, output_description := descs2 }).warnings =
        (analyze_ml_program model_path model).warnings ∧
      (analyze_ml_program model_path
          { model with input_description := descs1, output_description := descs2 }).blocking_issues =
        (analyze_ml_program model_path model).blocking_issues ∧
      (analyze_ml_program model_path
          { model with input_description := descs1, output_description := descs2 }).ane_compatible =
        (analyze_ml_program model_path model).ane_compatible) := by
  refine ⟨?_, ?_, ?_⟩
  · intro hnodup
    rw [analyze_input_shapes_eq, formatAndOpsPhase_input_shapes]
    rw [shapesUpdate_fresh model.input_description [] (by simp) hnodup]
    rfl
  · intro hnodup
    rw [analyze_output_shapes_eq, formatAndOpsPhase_output_shapes]
    rw [shapesUpdate_fresh model.output_description [] (by simp) hnodup]
    rfl
  · intro descs1 descs2
    refine ⟨?_, ?_, ?_⟩
    · rw [analyze_warnings_eq, analyze_warnings_eq, formatAndOpsPhase_descr_indep]
    · rw [analyze_blocking_eq, analyze_blocking_eq, formatAndOpsPhase_descr_indep]
    · rw [analyze_compat_eq, analyze_compat_eq, formatAndOpsPhase_descr_indep]

/-- A model with one multi-array input, one typeless input, and one output
whose type lacks the multiArrayType variant. -/
def shapedModel : MLModel :=
  { spec :=
      { which_type := some "mlProgram"
        mlProgram := { functions := [] }
        neuralNetwork := { layers := [] } }
    input_description :=
      [{ name := "input_ids", type := some { multiArrayType := some { shape := [1, 124] } } },
       { name := "mask", type := none }]
    output_description :=
      [{ name := "audio", type := some { multiArrayType := none } }] }

/-- Witness for C8_shape_extraction: the multi-array input is recorded, the
variant-less entries are silently omitted, and swapping the declarations
leaves the warnings untouched. -/
theorem C8_shape_extraction_witness :
    (analyze_ml_program "m" shapedModel).input_shapes = [("input_ids", [1, 124])] ∧
    (analyze_ml_program "m" shapedModel).output_shapes = [] ∧
    (analyze_ml_program "m"
        { shapedModel with input_description := [], output_description := [] }).warnings =
      (analyze_ml_program "m" shapedModel).warnings := by
  refine ⟨?_, ?_, ?_⟩
  · rw [(C8_shape_extraction "m" shapedModel).1 (by decide)]
    rfl
  · rw [(C8_shape_extraction "m" shapedModel).2.1 (by decide)]
    rfl
  · exact ((C8_shape_extraction "m" shapedModel).2.2 [] []).1

/-! ### Claims about quantize_kokoro.py: stub oracles -/

/-- A minimal mlProgram-format model for stub libraries. -/
def stubModel : MLModel :=
  { spec :=
      { which_type := some "mlProgram"
        mlProgram := { functions := [] }
        neuralNetwork := { layers := [] } }
    input_description := []
    output_description := [] }

/-- A stub library whose calls all succeed and whose size oracle returns
s_in for the input bundle and s_out for everything else. -/
def stubLib (s_in s_out : ℚ) : QuantLib :=
  { loadModel := fun _ => Except.ok stubModel
    get_model_size_mb := fun p => if p = "in.mlpackage" then s_in else s_out
    linear_quantize_weights := fun m => Except.ok m
    palettize_weights := fun m => Except.ok m
    quantize_weights := fun m _ _ => Except.ok m
    save := fun _ _ => Except.ok ()
    convert := fun _ _ _ => Except.ok stubModel
    predict := fun _ _ => Except.ok [] }

/-- Eliminating a successful Except bind. -/
theorem except_bind_ok {ε α β : Type _} (e : Except ε α) (f : α → Except ε β) (b : β)
    (h : e >>= f = Except.ok b) : ∃ a, e = Except.ok a ∧ f a = Except.ok b := by
  cases e with
  | error err => simp [Bind.bind, Except.bind] at h
  | ok a => exact ⟨a, rfl, by simpa [Bind.bind, Except.bind] using h⟩

/-! ### Claim C5 -/

/-- Claim C5: every metrics record a quantization entry point returns
satisfies reduction_percent = ((original − quantized) / original) × 100; in
particular sizes 100 and 52 give reduction 48, and sizes 200 and 100 give
exactly the record (200, 100, 50). -/
theorem C5_reduction_percent :
    (∀ (lib : QuantLib) (input_path output_path : String) (m : Metrics),
      quantize_to_float16 lib input_path output_path = Except.ok m →
      m.reduction_percent =
        ((m.original_size_mb - m.quantized_size_mb) / m.original_size_mb) * 100) ∧
    (∀ (lib : QuantLib) (input_path output_path : String) (m : Metrics),
      quantize_to_int8 lib input_path output_path = Except.ok m →
      m.reduction_percent =
        ((m.original_size_mb - m.quantized_size_mb) / m.original_size_mb) * 100) ∧
    (∀ m : Metrics,
      quantize_to_float16 (stubLib 100 52) "in.mlpackage" "out.mlpackage" = Except.ok m →
      m.original_size_mb = 100 ∧ m.quantized_size_mb = 52 ∧ m.reduction_percent = 48) ∧
    (∀ m : Metrics,
      quantize_to_float16 (stubLib 200 100) "in.mlpackage" "out.mlpackage" = Except.ok m →
      m.original_size_mb = 200 ∧ m.quantized_size_mb = 100 ∧ m.reduction_percent = 50) := by
  have hf16 : ∀ (lib : QuantLib) (input_path output_path : String) (m : Metrics),
      quantize_to_float16 lib input_path output_path = Except.ok m →
      m = { original_size_mb := lib.get_model_size_mb input_path
            quantized_size_mb := lib.get_model_size_mb output_path
            reduction_percent :=
              ((lib.get_model_size_mb input_path - lib.get_model_size_mb output_path) /
                lib.get_model_size_mb input_path) * 100 } := by
    intro lib input_path output_path m h
    unfold quantize_to_float16 at h
    obtain ⟨model, hm, h⟩ := except_bind_ok _ _ _ h
    dsimp only at h
    split at h <;>
    · obtain ⟨qm, hq, h⟩ := except_bind_ok _ _ _ h
      try dsimp only at h
      obtain ⟨u, hs, h⟩ := except_bind_ok _ _ _ h
      try dsimp only at h
      simp only [pure, Except.pure, Except.ok.injEq] at h
      exact h.symm
  have hi8 : ∀ (lib : QuantLib) (input_path output_path : String) (m : Metrics),
      quantize_to_int8 lib input_path output_path = Except.ok m →
      m = { original_size_mb := lib.get_model_size_mb input_path
            quantized_size_mb := lib.get_model_size_mb output_path
            reduction_percent :=
              ((lib.get_model_size_mb input_path - lib.get_model_size_mb output_path) /
                lib.get_model_size_mb input_path) * 100 } := by
    intro lib input_path output_path m h
    unfold quantize_to_int8 at h
    obtain ⟨model, hm, h⟩ := except_bind_ok _ _ _ h
    dsimp only at h
    split at h <;>
    · obtain ⟨qm, hq, h⟩ := except_bind_ok _ _ _ h
      try dsimp only at h
      obtain ⟨u, hs, h⟩ := except_bind_ok _ _ _ h
      try dsimp only at h
      simp only [pure, Except.pure, Except.ok.injEq] at h
      exact h.symm
  refine ⟨fun lib i o m h => by rw [hf16 lib i o m h],
    fun lib i o m h => by rw [hi8 lib i o m h], ?_, ?_⟩
  · intro m h
    rw [hf16 _ _ _ m h]
    have hne : ¬ ("out.mlpackage" : String) = "in.mlpackage" := by decide
    norm_num [stubLib, hne]
  · intro m h
    rw [hf16 _ _ _ m h]
    have hne : ¬ ("out.mlpackage" : String) = "in.mlpackage" := by decide
    norm_num [stubLib, hne]

/-- The metrics record the 100-to-52 stub run computes. -/
def stubMetrics100_52 : Metrics :=
  { original_size_mb := ((100 : ℚ))
    quantized_size_mb := ((52 : ℚ))
    reduction_percent := (((100 : ℚ) - 52) / 100) * 100 }

/-- Witness for C5_reduction_percent on the 100-to-52 stub run. -/
theorem C5_reduction_percent_witness :
    quantize_to_float16 (stubLib 100 52) "in.mlpackage" "out.mlpackage" =
      Except.ok stubMetrics100_52 ∧
    stubMetrics100_52.reduction_percent =
      ((stubMetrics100_52.original_size_mb - stubMetrics100_52.quantized_size_mb) /
        stubMetrics100_52.original_size_mb) * 100 :=
  ⟨rfl, C5_reduction_percent.1 (stubLib 100 52) "in.mlpackage" "out.mlpackage"
    stubMetrics100_52 rfl⟩

/-! ### Claim C9 -/

/-- Claim C9: with the from-onnx flag the reducer only performs the
interchange conversion and returns early: the action trace is the single
conversion, no metrics record is produced, and supplying the validate and
compile flags changes nothing. -/
theorem C9_from_onnx_early_return :
    ∀ (lib : QuantLib) (args : QuantArgs),
      args.from_onnx = true →
      quantize_main lib args =
        (convert_onnx_to_coreml_fp16 lib args.input args.output args.target).map
          (fun _ => ([MainAction.convert_action args.input args.output args.target],
            (none : Option Metrics))) ∧
      quantize_main lib { args with validate := true, compile := true } =
        quantize_main lib args := by
  intro lib args h
  constructor
  · unfold quantize_main
    rw [if_pos h]
    cases hc : convert_onnx_to_coreml_fp16 lib args.input args.output args.target with
    | error e => simp [hc, Bind.bind, Except.bind, Except.map]
    | ok mdl => simp [hc, Bind.bind, Except.bind, Except.map, pure, Except.pure]
  · unfold quantize_main
    rw [if_pos (show ({ args with validate := true, compile := true } : QuantArgs).from_onnx = true from h),
      if_pos h]

/-- The from-onnx argument record used as the C9 witness input. -/
def onnxArgs : QuantArgs :=
  { input := "model.onnx"
    output := "model.mlpackage"
    precision := "float16"
    from_onnx := true
    validate := true
    compile := true
    target := "ios16" }

/-- Witness for C9_from_onnx_early_return on a stub library. -/
theorem C9_from_onnx_early_return_witness :
    quantize_main (stubLib 1 1) onnxArgs =
      Except.ok ([MainAction.convert_action "model.onnx" "model.mlpackage" "ios16"],
        (none : Option Metrics)) ∧
    quantize_main (stubLib 1 1) { onnxArgs with validate := true, compile := true } =
      quantize_main (stubLib 1 1) onnxArgs := by
  have h := C9_from_onnx_early_return (stubLib 1 1) onnxArgs rfl
  exact ⟨by rw [h.1]; rfl, h.2⟩

/-! ### Claim C10 -/

/-- Claim C10: when both loads and both predictions succeed but the "audio"
key is missing from either output dict, validation returns the silent
implicit None (no exception, no caught warning, no metrics). -/
theorem C10_missing_audio_silent_absent :
    ∀ (lib : QuantLib) (o q : String) (mo mq : MLModel)
      (out1 out2 : List (String × List ℚ)),
      lib.loadModel o = Except.ok mo →
      lib.loadModel q = Except.ok mq →
      lib.predict mo test_input = Except.ok out1 →
      lib.predict mq test_input = Except.ok out2 →
      (out1.lookup "audio" = none ∨ out2.lookup "audio" = none) →
      validate_quantized_model lib o q = Except.ok ValidateResult.absent := by
  intro lib o q mo mq out1 out2 h1 h2 h3 h4 h5
  unfold validate_quantized_model
  rcases h5 with h5 | h5
  · cases hy : out2.lookup "audio" <;>
      simp [h1, h2, h3, h4, h5, hy, Bind.bind, Except.bind, pure, Except.pure]
  · cases hx : out1.lookup "audio" <;>
      simp [h1, h2, h3, h4, h5, hx, Bind.bind, Except.bind, pure, Except.pure]

/-- A stub library whose predictions return an output dict without an
"audio" key. -/
def noAudioLib : QuantLib :=
  { stubLib 1 1 with predict := fun _ _ => Except.ok [("phonemes", [(1 : ℚ)])] }

/-- Witness for C10_missing_audio_silent_absent on the audio-less stub. -/
theorem C10_missing_audio_silent_absent_witness :
    validate_quantized_model noAudioLib "orig.mlpackage" "quant.mlpackage" =
      Except.ok ValidateResult.absent :=
  C10_missing_audio_silent_absent noAudioLib "orig.mlpackage" "quant.mlpackage"
    stubModel stubModel [("phonemes", [(1 : ℚ)])] [("phonemes", [(1 : ℚ)])]
    rfl rfl rfl rfl (Or.inl rfl)

/-! ### Claim C4 -/

/-- A stub library whose model loads raise. -/
def loadFailLib : QuantLib :=
  { stubLib 1 1 with loadModel := fun _ => Except.error "load failed" }

/-- Claim C4 counterexample: a library-call exception raised while
validating is not always caught: the two model loads at the top of
validate_quantized_model sit before the try block, so their exception
propagates out of the validation function instead of being turned into an
absent result. -/
theorem C4_counterexample :
    validate_quantized_model loadFailLib "orig.mlpackage" "quant.mlpackage" =
      Except.error "load failed" := rfl

/-- Claim C4 (amended): inside the prediction-and-comparison try block of
the validation step every library exception is caught and turned into the
warned absent result; but the two model loads at the top of the validation
function propagate, as do failures outside the validation step (load or
quantize inside either quantization entry point, and conversion inside the
from-onnx path). -/
theorem C4_exception_handling :
    (∀ (lib : QuantLib) (o q : String) (mo mq : MLModel) (e : String),
      lib.loadModel o = Except.ok mo →
      lib.loadModel q = Except.ok mq →
      lib.predict mo test_input = Except.error e →
      validate_quantized_model lib o q = Except.ok (ValidateResult.caught e)) ∧
    (∀ (lib : QuantLib) (o q : String) (mo mq : MLModel)
      (out1 : List (String × List ℚ)) (e : String),
      lib.loadModel o = Except.ok mo →
      lib.loadModel q = Except.ok mq →
      lib.predict mo test_input = Except.ok out1 →
      lib.predict mq test_input = Except.error e →
      validate_quantized_model lib o q = Except.ok (ValidateResult.caught e)) ∧
    (∀ (lib : QuantLib) (o q e : String),
      lib.loadModel o = Except.error e →
      validate_quantized_model lib o q = Except.error e) ∧
    (∀ (lib : QuantLib) (o q : String) (mo : MLModel) (e : String),
      lib.loadModel o = Except.ok mo →
      lib.loadModel q = Except.error e →
      validate_quantized_model lib o q = Except.error e) ∧
    (∀ (lib : QuantLib) (i o e : String),
      lib.loadModel i = Except.error e →
      quantize_to_float16 lib i o = Except.error e ∧
      quantize_to_int8 lib i o = Except.error e) ∧
    (∀ (lib : QuantLib) (i o : String) (mo : MLModel) (e : String),
      lib.loadModel i = Except.ok mo →
      mo.spec.which_type = some "mlProgram" →
      lib.linear_quantize_weights mo = Except.error e →
      quantize_to_float16 lib i o = Except.error e) ∧
    (∀ (lib : QuantLib) (i o tgt e : String),
      lib.convert i kokoro_input_shapes ((target_map.lookup tgt).getD "iOS16") =
        Except.error e →
      convert_onnx_to_coreml_fp16 lib i o tgt = Except.error e) := by
  refine ⟨?_, ?_, ?_, ?_, ?_, ?_, ?_⟩
  · intro lib o q mo mq e h1 h2 h3
    unfold validate_quantized_model
    simp [h1, h2, h3, Bind.bind, Except.bind, pure, Except.pure]
  · intro lib o q mo mq out1 e h1 h2 h3 h4
    unfold validate_quantized_model
    simp [h1, h2, h3, h4, Bind.bind, Except.bind, pure, Except.pure]
  · intro lib o q e h1
    unfold validate_quantized_model
    simp [h1, Bind.bind, Except.bind]
  · intro lib o q mo e h1 h2
    unfold validate_quantized_model
    simp [h1, h2, Bind.bind, Except.bind]
  · intro lib i o e h1
    constructor
    · unfold quantize_to_float16
      simp [h1, Bind.bind, Except.bind]
    · unfold quantize_to_int8
      simp [h1, Bind.bind, Except.bind]
  · intro lib i o mo e h1 h2 h3
    unfold quantize_to_float16
    simp [h1, h2, h3, Bind.bind, Except.bind]
  · intro lib i o tgt e h1
    unfold convert_onnx_to_coreml_fp16
    simp [h1, Bind.bind, Except.bind]

/-- A stub library whose predictions raise. -/
def predictFailLib : QuantLib :=
  { stubLib 1 1 with predict := fun _ _ => Except.error "predict failed" }

/-- A stub library whose conversions raise. -/
def convertFailLib : QuantLib :=
  { stubLib 1 1 with convert := fun _ _ _ => Except.error "convert failed" }

/-- Witness for C4_exception_handling: a prediction exception is caught as
the warned absent result, while load and convert exceptions propagate. -/
theorem C4_exception_handling_witness :
    validate_quantized_model predictFailLib "orig.mlpackage" "quant.mlpackage" =
      Except.ok (ValidateResult.caught "predict failed") ∧
    quantize_to_float16 loadFailLib "in.mlpackage" "out.mlpackage" =
      Except.error "load failed" ∧
    convert_onnx_to_coreml_fp16 convertFailLib "model.onnx" "model.mlpackage" "ios16" =
      Except.error "convert failed" :=
  ⟨C4_exception_handling.1 predictFailLib "orig.mlpackage" "quant.mlpackage"
      stubModel stubModel "predict failed" rfl rfl rfl,
   (C4_exception_handling.2.2.2.2.1 loadFailLib "in.mlpackage" "out.mlpackage"
      "load failed" rfl).1,
   C4_exception_handling.2.2.2.2.2.2 convertFailLib "model.onnx" "model.mlpackage"
      "ios16" "convert failed" rfl⟩

/-! ### Claim C6 -/

/-- A list of zeros sums to zero. -/
theorem sum_all_zero : ∀ l : List ℚ, (∀ x ∈ l, x = 0) → l.sum = 0 := by
  intro l
  induction l with
  | nil => intro; rfl
  | cons a t ih =>
    intro h
    rw [List.sum_cons, h a (List.mem_cons_self _ _),
      ih (fun x hx => h x (List.mem_cons_of_mem _ hx)), add_zero]

/-- A sum of squares is nonnegative. -/
theorem sq_list_sum_nonneg (l : List ℚ) : 0 ≤ (l.map (fun x => x * x)).sum := by
  induction l with
  | nil => simp
  | cons a t ih =>
    rw [List.map_cons, List.sum_cons]
    exact add_nonneg (mul_self_nonneg a) ih

/-- A sum of squares vanishes exactly when every entry vanishes. -/
theorem sq_list_sum_zero (l : List ℚ) :
    (l.map (fun x => x * x)).sum = 0 ↔ ∀ x ∈ l, x = 0 := by
  induction l with
  | nil => simp
  | cons a t ih =>
    rw [List.map_cons, List.sum_cons,
      add_eq_zero_iff_of_nonneg (mul_self_nonneg a) (sq_list_sum_nonneg t),
      mul_self_eq_zero, ih]
    constructor
    · rintro ⟨ha, ht⟩ x hx
      rcases List.mem_cons.mp hx with rfl | hx
      exacts [ha, ht x hx]
    · intro hall
      exact ⟨hall a (List.mem_cons_self _ _), fun x hx => hall x (List.mem_cons_of_mem _ hx)⟩

/-- Folding max from zero over a list of zeros gives zero. -/
theorem foldl_max_all_zero : ∀ l : List ℚ, (∀ x ∈ l, x = 0) → l.foldl max 0 = 0 := by
  intro l
  induction l with
  | nil => intro; rfl
  | cons a t ih =>
    intro h
    rw [List.foldl_cons, h a (List.mem_cons_self _ _), max_self]
    exact ih (fun x hx => h x (List.mem_cons_of_mem _ hx))

/-- The pointwise difference of a list with itself is all zeros. -/
theorem zipWith_sub_self_mem (l : List ℚ) :
    ∀ x ∈ List.zipWith (fun a b => a - b) l l, x = (0 : ℚ) := by
  induction l with
  | nil => intro x hx; cases hx
  | cons a t ih =>
    intro x hx
    rw [List.zipWith_cons_cons] at hx
    rcases List.mem_cons.mp hx with h | h
    · rw [h, sub_self]
    · exact ih x h

/-- For equal-length lists, the pointwise difference is all zeros exactly
when the lists are equal. -/
theorem zipWith_sub_eq_zero_iff :
    ∀ (a b : List ℚ), a.length = b.length →
      ((∀ x ∈ List.zipWith (fun x y => x - y) a b, x = 0) ↔ a = b) := by
  intro a
  induction a with
  | nil =>
    intro b hb
    cases b with
    | nil => simp
    | cons y ys => simp at hb
  | cons x xs ih =>
    intro b hb
    cases b with
    | nil => simp at hb
    | cons y ys =>
      rw [List.zipWith_cons_cons, List.forall_mem_cons]
      rw [List.length_cons, List.length_cons, Nat.add_right_cancel_iff] at hb
      rw [ih ys hb]
      simp only [List.cons.injEq]
      constructor
      · rintro ⟨h1, h2⟩
        exact ⟨sub_eq_zero.mp h1, h2⟩
      · rintro ⟨h1, h2⟩
        exact ⟨by rw [h1, sub_self], h2⟩

/-- np.max of a nonempty list of zeros is zero. -/
theorem np_max_all_zero :
    ∀ l : List ℚ, l ≠ [] → (∀ x ∈ l, x = 0) → np_max l = Except.ok 0 := by
  intro l hne hall
  cases l with
  | nil => exact absurd rfl hne
  | cons a t =>
    show Except.ok (t.foldl max a) = Except.ok 0
    rw [hall a (List.mem_cons_self _ _),
      foldl_max_all_zero t (fun x hx => hall x (List.mem_cons_of_mem _ hx))]

/-- Claim C6 counterexample: two identical but empty audio arrays do not
yield the infinite sentinel with zero errors; the max-of-absolute-errors
reduction raises the numpy zero-size ValueError instead (which the
validation step then catches as a warned absent result). -/
theorem C6_counterexample :
    ([] : List ℚ) = ([] : List ℚ) ∧
    audio_comparison ([] : List ℚ) ([] : List ℚ) = Except.error npMaxEmptyMsg :=
  ⟨rfl, rfl⟩

/-- Claim C6 (amended): when the two flattened audio arrays are identical
and nonempty the comparison succeeds with the infinite SNR sentinel and
maximum and mean absolute errors exactly zero; on empty arrays the max
reduction raises the numpy zero-size error instead; when the truncated
arrays differ, the comparison succeeds and the reported SNR is the finite
value whose decibel reading is 10 · log10 of the ratio of the mean squared
signal to the mean squared noise, both computed over the arrays truncated
to the shorter length. -/
theorem C6_snr_computation (orig_audio quant_audio : List ℚ) :
    (orig_audio = quant_audio → orig_audio ≠ [] →
      audio_comparison orig_audio quant_audio =
        Except.ok { snr_db := none, max_error := 0, mean_error := 0 }) ∧
    (orig_audio = [] → quant_audio = [] →
      audio_comparison orig_audio quant_audio = Except.error npMaxEmptyMsg) ∧
    (orig_audio.take (min orig_audio.length quant_audio.length) ≠
        quant_audio.take (min orig_audio.length quant_audio.length) →
      (audio_comparison orig_audio quant_audio).map AudioMetrics.snr_db =
        Except.ok (some (qmean ((orig_audio.take (min orig_audio.length quant_audio.length)).map
                fun x => x * x),
              qmean ((List.zipWith (fun a b => a - b)
                (orig_audio.take (min orig_audio.length quant_audio.length))
                (quant_audio.take (min orig_audio.length quant_audio.length))).map
                fun x => x * x))) ∧
      (audio_comparison orig_audio quant_audio).map
          (fun m => m.snr_db.map (fun p => (10 : ℝ) * Real.logb 10 ((p.1 : ℝ) / (p.2 : ℝ)))) =
        Except.ok (some ((10 : ℝ) * Real.logb 10
          (((qmean ((orig_audio.take (min orig_audio.length quant_audio.length)).map
              fun x => x * x) : ℚ) : ℝ) /
            ((qmean ((List.zipWith (fun a b => a - b)
              (orig_audio.take (min orig_audio.length quant_audio.length))
              (quant_audio.take (min orig_audio.length quant_audio.length))).map
              fun x => x * x) : ℚ) : ℝ))))) := by
  refine ⟨?_, ?_, ?_⟩
  · rintro rfl hne
    unfold audio_comparison
    dsimp only
    rw [min_self, List.take_length]
    have hz := zipWith_sub_self_mem orig_audio
    have habs : ∀ x ∈ (List.zipWith (fun a b => a - b) orig_audio orig_audio).map
        (fun x => |x|), x = (0 : ℚ) := by
      intro x hx
      rcases List.mem_map.mp hx with ⟨y, hy, rfl⟩
      rw [hz y hy, abs_zero]
    have hnoise_ne : (List.zipWith (fun a b => a - b) orig_audio orig_audio).map
        (fun x => |x|) ≠ [] := by
      intro hemp
      apply hne
      have hl := congrArg List.length hemp
      rw [List.length_map, List.length_zipWith, min_self] at hl
      exact List.length_eq_zero.mp hl
    rw [show qmean ((List.zipWith (fun a b => a - b) orig_audio orig_audio).map
        fun x => x * x) = 0 by
      unfold qmean
      rw [(sq_list_sum_zero _).mpr hz, zero_div]]
    rw [if_neg (lt_irrefl (0 : ℚ))]
    rw [np_max_all_zero _ hnoise_ne habs]
    rw [show qmean ((List.zipWith (fun a b => a - b) orig_audio orig_audio).map
        fun x => |x|) = 0 by
      unfold qmean
      rw [sum_all_zero _ habs, zero_div]]
    rfl
  · intro h1 h2
    subst h1
    subst h2
    rfl
  · intro hneq
    have hmin_pos : 0 < min orig_audio.length quant_audio.length := by
      rcases Nat.eq_zero_or_pos (min orig_audio.length quant_audio.length) with h0 | h
      · rw [h0] at hneq
        exact absurd rfl hneq
      · exact h
    have hlen : (orig_audio.take (min orig_audio.length quant_audio.length)).length =
        (quant_audio.take (min orig_audio.length quant_audio.length)).length := by
      rw [List.length_take, List.length_take]
      omega
    have hnotall : ¬ ∀ x ∈ List.zipWith (fun a b => a - b)
        (orig_audio.take (min orig_audio.length quant_audio.length))
        (quant_audio.take (min orig_audio.length quant_audio.length)), x = (0 : ℚ) :=
      fun hall => hneq ((zipWith_sub_eq_zero_iff _ _ hlen).mp hall)
    have hsum_ne : ((List.zipWith (fun a b => a - b)
        (orig_audio.take (min orig_audio.length quant_audio.length))
        (quant_audio.take (min orig_audio.length quant_audio.length))).map
          (fun x => x * x)).sum ≠ 0 :=
      fun h0 => hnotall ((sq_list_sum_zero _).mp h0)
    have hsum_pos : 0 < ((List.zipWith (fun a b => a - b)
        (orig_audio.take (min orig_audio.length quant_audio.length))
        (quant_audio.take (min orig_audio.length quant_audio.length))).map
          (fun x => x * x)).sum :=
      lt_of_le_of_ne (sq_list_sum_nonneg _) (Ne.symm hsum_ne)
    have hlen_pos : 0 < (((List.zipWith (fun a b => a - b)
        (orig_audio.take (min orig_audio.length quant_audio.length))
        (quant_audio.take (min orig_audio.length quant_audio.length))).map
          (fun x => x * x)).length : ℚ) := by
      rcases hls : ((List.zipWith (fun a b => a - b)
        (orig_audio.take (min orig_audio.length quant_audio.length))
        (quant_audio.take (min orig_audio.length quant_audio.length))).map
          (fun x => x * x)) with _ | ⟨a, t⟩
      · rw [hls] at hsum_pos
        simp at hsum_pos
      · simp only [List.length_cons]
        exact_mod_cast Nat.succ_pos t.length
    have hnp_pos : qmean ((List.zipWith (fun a b => a - b)
        (orig_audio.take (min orig_audio.length quant_audio.length))
        (quant_audio.take (min orig_audio.length quant_audio.length))).map
          (fun x => x * x)) > 0 := by
      unfold qmean
      exact div_pos hsum_pos hlen_pos
    have hnoise_ne : ((List.zipWith (fun a b => a - b)
        (orig_audio.take (min orig_audio.length quant_audio.length))
        (quant_audio.take (min orig_audio.length quant_audio.length))).map
          (fun x => |x|)) ≠ [] := by
      intro hemp
      have hl := congrArg List.length hemp
      rw [List.length_map, List.length_zipWith, List.length_take, List.length_take] at hl
      simp only [List.length_nil] at hl
      omega
    obtain ⟨v, hv⟩ : ∃ v, np_max ((List.zipWith (fun a b => a - b)
        (orig_audio.take (min orig_audio.length quant_audio.length))
        (quant_audio.take (min orig_audio.length quant_audio.length))).map
          (fun x => |x|)) = Except.ok v := by
      rcases hcase : ((List.zipWith (fun a b => a - b)
        (orig_audio.take (min orig_audio.length quant_audio.length))
        (quant_audio.take (min orig_audio.length quant_audio.length))).map
          (fun x => |x|)) with _ | ⟨a, t⟩
      · exact absurd hcase hnoise_ne
      · exact ⟨t.foldl max a, rfl⟩
    have hok : audio_comparison orig_audio quant_audio =
        Except.ok
          { snr_db := some (qmean ((orig_audio.take
                (min orig_audio.length quant_audio.length)).map fun x => x * x),
              qmean ((List.zipWith (fun a b => a - b)
                (orig_audio.take (min orig_audio.length quant_audio.length))
                (quant_audio.take (min orig_audio.length quant_audio.length))).map
                fun x => x * x))
            max_error := v
            mean_error := qmean ((List.zipWith (fun a b => a - b)
              (orig_audio.take (min orig_audio.length quant_audio.length))
              (quant_audio.take (min orig_audio.length quant_audio.length))).map
                fun x => |x|) } := by
      unfold audio_comparison
      dsimp only
      rw [if_pos hnp_pos, hv]
      rfl
    constructor
    · rw [hok]
      rfl
    · rw [hok]
      rfl

/-- Witness for C6_snr_computation: identical one-sample arrays give the
sentinel and zero errors, identical empty arrays give the numpy zero-size
error, and the arrays [1, 2] and [1, 0] differ after truncation and give
the finite mean-power pair. -/
theorem C6_snr_computation_witness :
    audio_comparison [(3 : ℚ)] [(3 : ℚ)] =
      Except.ok { snr_db := none, max_error := 0, mean_error := 0 } ∧
    audio_comparison ([] : List ℚ) ([] : List ℚ) = Except.error npMaxEmptyMsg ∧
    (audio_comparison [(1 : ℚ), 2] [(1 : ℚ), 0]).map AudioMetrics.snr_db =
      Except.ok (some (qmean (([(1 : ℚ), 2].take
              (min ([(1 : ℚ), 2] : List ℚ).length ([(1 : ℚ), 0] : List ℚ).length)).map
              fun x => x * x),
            qmean ((List.zipWith (fun a b => a - b)
              ([(1 : ℚ), 2].take
                (min ([(1 : ℚ), 2] : List ℚ).length ([(1 : ℚ), 0] : List ℚ).length))
              ([(1 : ℚ), 0].take
                (min ([(1 : ℚ), 2] : List ℚ).length ([(1 : ℚ), 0] : List ℚ).length))).map
              fun x => x * x))) :=
  ⟨(C6_snr_computation [(3 : ℚ)] [(3 : ℚ)]).1 rfl (by decide),
   (C6_snr_computation ([] : List ℚ) ([] : List ℚ)).2.1 rfl rfl,
   ((C6_snr_computation [(1 : ℚ), 2] [(1 : ℚ), 0]).2.2 (by decide)).1⟩

